import Mathlib

/-!
Verification of the TeamCast enrichment core (`src/playgenerate/src`):
the ESPN client (`espn_client.py`), the game identifier mapper
(`game_mapper.py`), the play matcher (`play_matcher.py`) and the
play-deduplication step of the pipeline (`pipeline.py`).

The Python code is embedded shallowly:
* machine floats used for scores and coordinates become exact rationals `ℚ`;
* Python `int` becomes `Int`, strings become `String`;
* network access becomes a pure oracle `Net : String → Option RespData`
  giving, per request URL, the parsed payload of a successful response
  (`none` models a request failure, i.e. a caught `RequestException`);
* wall-clock time (`time.time` / `time.sleep`) becomes a mock clock
  threaded through the client state;
* an uncaught Python exception becomes `Except.error`.
-/

set_option maxRecDepth 4000
set_option linter.unusedVariables false

/-- `GameInfo` dataclass of `espn_client.py` (basic game information). -/
structure GameInfo where
  espn_id : String
  date : String
  home_team : String
  home_team_abbrev : String
  away_team : String
  away_team_abbrev : String
  stadium : String
  home_score : Int
  away_score : Int
  status : String
deriving DecidableEq, Repr

/-- `PlayInfo` dataclass of `espn_client.py` (one play-by-play entry). -/
structure PlayInfo where
  play_id : String
  quarter : Int
  clock : String
  down : Int
  distance : Int
  yard_line : Int
  yard_line_side : String
  play_text : String
  play_type : String
  scoring_play : Bool
  home_score : Int
  away_score : Int
deriving DecidableEq, Repr

/-- `GameMapping` dataclass of `game_mapper.py`. -/
structure GameMapping where
  bdb_game_id : String
  espn_game_id : String
  date : String
  home_team : String
  home_team_abbrev : String
  away_team : String
  away_team_abbrev : String
  stadium : String
deriving DecidableEq, Repr

/-- `EnrichedPlay` dataclass of `play_matcher.py`. -/
structure EnrichedPlay where
  game_id : String
  play_id : Int
  absolute_yardline : Int
  play_direction : String
  ball_land_x : ℚ
  ball_land_y : ℚ
  num_frames : Int
  quarter : Int
  game_clock : String
  down : Int
  yards_to_go : Int
  play_description : String
  play_type : String
  scoring_play : Bool
  home_team : String
  away_team : String
  stadium : String
  home_score : Int
  away_score : Int
  match_confidence : ℚ
deriving DecidableEq, Repr

/-- `PlayMatcher.absolute_to_espn_yardline` (`play_matcher.py`, line 110):
`return 110 - absolute_yardline`. -/
def absolute_to_espn_yardline (absolute_yardline : Int) : Int :=
  110 - absolute_yardline

/-- `PlayMatcher.calculate_match_score` (`play_matcher.py`, lines 133-182).
The `bdb_direction` argument is accepted but never used by the source. -/
def calculate_match_score (bdb_yardline : Int) (espn_yardline : Int)
    (bdb_direction : String) (espn_down : Int) (sequence_distance : Int) : ℚ :=
  let score : ℚ := 0
  let bdb_converted := absolute_to_espn_yardline bdb_yardline
  let yardline_diff := |bdb_converted - espn_yardline|
  let score := score +
    (if yardline_diff = 0 then (0.6 : ℚ)
     else if yardline_diff ≤ 2 then (0.5 : ℚ)
     else if yardline_diff ≤ 5 then (0.3 : ℚ)
     else if yardline_diff ≤ 10 then (0.1 : ℚ)
     else 0)
  let score := score +
    (if sequence_distance = 0 then (0.3 : ℚ)
     else if sequence_distance ≤ 2 then (0.2 : ℚ)
     else if sequence_distance ≤ 5 then (0.1 : ℚ)
     else 0)
  let score := score + (if espn_down > 0 then (0.1 : ℚ) else 0)
  min score 1

/-- Field-position component as the spec words it (C1): award on
`diff = |external_yard_line(source) - candidate.yard_line|`. -/
def specFieldScore (diff : Int) : ℚ :=
  if diff = 0 then (0.6 : ℚ)
  else if diff ≤ 2 then (0.5 : ℚ)
  else if diff ≤ 5 then (0.3 : ℚ)
  else if diff ≤ 10 then (0.1 : ℚ)
  else 0

/-- Sequence-proximity component as the spec words it (C1). -/
def specSeqScore (dist : Int) : ℚ :=
  if dist = 0 then (0.3 : ℚ)
  else if dist ≤ 2 then (0.2 : ℚ)
  else if dist ≤ 5 then (0.1 : ℚ)
  else 0

/-- Regular-scrimmage bonus as the spec words it (C1). -/
def specDownBonus (down : Int) : ℚ :=
  if down > 0 then (0.1 : ℚ) else 0

-- Sanity anchor: the spec's end-to-end scenario (§8): absolute yardline 42,
-- candidate yard line 68, down 3, sequence distance 0 scores exactly 1.
example : calculate_match_score 42 68 "right" 3 0 = 1 := by
  norm_num [calculate_match_score, absolute_to_espn_yardline]

example : calculate_match_score 42 68 "right" 0 7 = 0.6 := by
  norm_num [calculate_match_score, absolute_to_espn_yardline]

/-- Bounds of the field-position component. -/
lemma specFieldScore_bounds (d : Int) :
    0 ≤ specFieldScore d ∧ specFieldScore d ≤ 0.6 := by
  unfold specFieldScore; split_ifs <;> norm_num

/-- Bounds of the sequence-proximity component. -/
lemma specSeqScore_bounds (d : Int) :
    0 ≤ specSeqScore d ∧ specSeqScore d ≤ 0.3 := by
  unfold specSeqScore; split_ifs <;> norm_num

/-- Bounds of the regular-scrimmage bonus. -/
lemma specDownBonus_bounds (d : Int) :
    0 ≤ specDownBonus d ∧ specDownBonus d ≤ 0.1 := by
  unfold specDownBonus; split_ifs <;> norm_num

/-- C1: for every candidate play and sequence distance,
`calculate_match_score` returns exactly the additive piecewise score the
spec defines — the field-position component on
`diff = |(110 - absolute_yardline) - candidate.yard_line|`, the sequence
component on the given distance, plus `0.1` when the candidate's down is
positive — and the total always lies in `[0, 1]`. -/
theorem calculate_match_score_is_spec_sum (b e : Int) (d : String) (dn s : Int) :
    calculate_match_score b e d dn s =
      specFieldScore |110 - b - e| + specSeqScore s + specDownBonus dn ∧
    0 ≤ calculate_match_score b e d dn s ∧
    calculate_match_score b e d dn s ≤ 1 := by
  have hmain : calculate_match_score b e d dn s =
      specFieldScore |110 - b - e| + specSeqScore s + specDownBonus dn := by
    have habs : (110 : Int) - b - e = absolute_to_espn_yardline b - e := by
      simp [absolute_to_espn_yardline, sub_sub]
    rw [habs]
    unfold calculate_match_score specFieldScore specSeqScore specDownBonus
    dsimp only
    split_ifs <;> norm_num
  obtain ⟨hf0, hf1⟩ := specFieldScore_bounds |110 - b - e|
  obtain ⟨hs0, hs1⟩ := specSeqScore_bounds s
  obtain ⟨hd0, hd1⟩ := specDownBonus_bounds dn
  refine ⟨hmain, ?_, ?_⟩ <;> rw [hmain] <;> linarith

/-- C3: the coordinate translation is the pure map
`external = 110 - absolute`, and applying the same conversion to the
result recovers the original value exactly, for every absolute yard line
in `[0, 120]`. -/
theorem absolute_to_espn_yardline_involutive (a : Int)
    (h0 : 0 ≤ a) (h1 : a ≤ 120) :
    absolute_to_espn_yardline a = 110 - a ∧
    absolute_to_espn_yardline (absolute_to_espn_yardline a) = a := by
  unfold absolute_to_espn_yardline
  omega

/-- Witness for C3 at the spec's own example value `42`. -/
theorem absolute_to_espn_yardline_involutive_witness :
    absolute_to_espn_yardline 42 = 110 - 42 ∧
    absolute_to_espn_yardline (absolute_to_espn_yardline 42) = 42 :=
  absolute_to_espn_yardline_involutive 42 (by decide) (by decide)

/-- One raw tracking row as consumed by `NFLPipeline.extract_unique_plays`
(`pipeline.py`, lines 93-116): the columns the aggregation touches. -/
structure TrackingRow where
  game_id : String
  play_id : Int
  absolute_yardline : Int
  play_direction : String
  ball_land_x : ℚ
  ball_land_y : ℚ
  num_frames : Int
deriving DecidableEq, Repr

/-- The `(game_id, play_id)` grouping key. -/
def rowKey (r : TrackingRow) : String × Int :=
  (r.game_id, r.play_id)

/-- Recursion core of `extract_unique_plays`: keep each row whose key has
not been seen yet, first occurrence winning. -/
def extractUniqueGo : List TrackingRow → List (String × Int) → List TrackingRow
  | [], _ => []
  | r :: rs, seen =>
      if rowKey r ∈ seen then extractUniqueGo rs seen
      else r :: extractUniqueGo rs (rowKey r :: seen)

/-- `NFLPipeline.extract_unique_plays` (`pipeline.py`, lines 93-116):
`df.groupby(['game_id','play_id']).agg('first')` — one row per distinct
`(game_id, play_id)` key, whose field values come from the first input row
bearing that key.  (pandas additionally sorts the output by key; the
claims under verification concern only the per-key content and key
uniqueness, so output order is kept as first-occurrence order here.) -/
def extract_unique_plays (rows : List TrackingRow) : List TrackingRow :=
  extractUniqueGo rows []

/-- Members of the deduplicated list come from the input list. -/
lemma extractUniqueGo_subset (rows : List TrackingRow) :
    ∀ (seen : List (String × Int)) (r : TrackingRow),
      r ∈ extractUniqueGo rows seen → r ∈ rows := by
  induction rows with
  | nil => intro seen r h; simp [extractUniqueGo] at h
  | cons r0 rs ih =>
      intro seen r h
      rw [extractUniqueGo] at h
      split at h
      · exact List.mem_cons_of_mem _ (ih _ _ h)
      · rcases List.mem_cons.mp h with h' | h'
        · exact h' ▸ List.mem_cons_self _ _
        · exact List.mem_cons_of_mem _ (ih _ _ h')

/-- A key occurs in the output of the core iff it occurs in the input and
was not already seen. -/
lemma extractUniqueGo_keys (rows : List TrackingRow) :
    ∀ (seen : List (String × Int)) (k : String × Int),
      k ∈ (extractUniqueGo rows seen).map rowKey ↔
        (k ∈ rows.map rowKey ∧ k ∉ seen) := by
  induction rows with
  | nil => intro seen k; simp [extractUniqueGo]
  | cons r0 rs ih =>
      intro seen k
      rw [extractUniqueGo]
      split
      · next hseen =>
          rw [ih]
          simp only [List.map_cons, List.mem_cons]
          constructor
          · rintro ⟨h1, h2⟩; exact ⟨Or.inr h1, h2⟩
          · rintro ⟨h1 | h1, h2⟩
            · exact absurd (h1 ▸ hseen) h2
            · exact ⟨h1, h2⟩
      · next hseen =>
          simp only [List.map_cons, List.mem_cons, ih, List.mem_cons]
          constructor
          · rintro (h | ⟨h1, h2⟩)
            · exact ⟨Or.inl h, h ▸ hseen⟩
            · exact ⟨Or.inr h1, fun hk => h2 (Or.inr hk)⟩
          · rintro ⟨h1 | h1, h2⟩
            · exact Or.inl h1
            · by_cases hk : k = rowKey r0
              · exact Or.inl hk
              · exact Or.inr ⟨h1, fun hc => hc.elim hk h2⟩

/-- The core's output carries pairwise-distinct keys. -/
lemma extractUniqueGo_nodup (rows : List TrackingRow) :
    ∀ seen : List (String × Int),
      ((extractUniqueGo rows seen).map rowKey).Nodup := by
  induction rows with
  | nil => intro seen; simp [extractUniqueGo]
  | cons r0 rs ih =>
      intro seen
      rw [extractUniqueGo]
      split
      · exact ih seen
      · next hseen =>
          simp only [List.map_cons, List.nodup_cons]
          refine ⟨?_, ih _⟩
          intro hmem
          have := (extractUniqueGo_keys rs _ _).mp hmem
          exact this.2 (List.mem_cons_self _ _)

/-- Each row kept by the core is the first input row bearing its key. -/
lemma extractUniqueGo_first (rows : List TrackingRow) :
    ∀ (seen : List (String × Int)) (r : TrackingRow),
      r ∈ extractUniqueGo rows seen →
      rows.find? (fun r2 => decide (rowKey r2 = rowKey r)) = some r := by
  induction rows with
  | nil => intro seen r h; simp [extractUniqueGo] at h
  | cons r0 rs ih =>
      intro seen r h
      rw [extractUniqueGo] at h
      rw [List.find?_cons]
      split at h
      · next hseen =>
          have hk := (extractUniqueGo_keys rs seen (rowKey r)).mp
            (List.mem_map_of_mem rowKey h)
          have hne : rowKey r0 ≠ rowKey r := fun hc => hk.2 (hc ▸ hseen)
          have : (decide (rowKey r0 = rowKey r)) = false := by simpa using hne
          rw [this]
          exact ih _ _ h
      · next hseen =>
          rcases List.mem_cons.mp h with h' | h'
          · subst h'; simp
          · have hk := (extractUniqueGo_keys rs _ (rowKey r)).mp
              (List.mem_map_of_mem rowKey h')
            have hne : rowKey r0 ≠ rowKey r :=
              fun hc => hk.2 (hc ▸ List.mem_cons_self _ _)
            have : (decide (rowKey r0 = rowKey r)) = false := by simpa using hne
            rw [this]
            exact ih _ _ h'

/-- C9: extracting unique plays produces exactly one play per distinct
`(game_id, play_id)` key — keys are pairwise distinct and every input key
is represented — and each produced play equals (in all fields) the first
input row bearing its key. -/
theorem extract_unique_plays_dedup_first_wins
    (rows : List TrackingRow) (r : TrackingRow) (k : String × Int)
    (hr : r ∈ extract_unique_plays rows)
    (hk : k ∈ rows.map rowKey) :
    ((extract_unique_plays rows).map rowKey).Nodup ∧
    k ∈ (extract_unique_plays rows).map rowKey ∧
    rows.find? (fun r2 => decide (rowKey r2 = rowKey r)) = some r :=
  ⟨extractUniqueGo_nodup rows [],
   (extractUniqueGo_keys rows [] k).mpr ⟨hk, by simp⟩,
   extractUniqueGo_first rows [] r hr⟩

/-- A pair of rows sharing a key but differing in the other fields, as in
the spec's deduplication test. -/
def dupRowA : TrackingRow :=
  { game_id := "2023090700", play_id := 101, absolute_yardline := 42,
    play_direction := "right", ball_land_x := 63.26, ball_land_y := -0.22,
    num_frames := 21 }

/-- Second row with the same key as `dupRowA` but different fields. -/
def dupRowB : TrackingRow :=
  { game_id := "2023090700", play_id := 101, absolute_yardline := 77,
    play_direction := "left", ball_land_x := 0, ball_land_y := 0,
    num_frames := 5 }

/-- Witness for C9: on two rows with an identical key and different other
fields, exactly one play is produced and it matches the first-seen row. -/
theorem extract_unique_plays_dedup_first_wins_witness :
    ((extract_unique_plays [dupRowA, dupRowB]).map rowKey).Nodup ∧
    ("2023090700", (101 : Int)) ∈ (extract_unique_plays [dupRowA, dupRowB]).map rowKey ∧
    [dupRowA, dupRowB].find? (fun r2 => decide (rowKey r2 = rowKey dupRowA)) = some dupRowA :=
  extract_unique_plays_dedup_first_wins [dupRowA, dupRowB] dupRowA
    ("2023090700", (101 : Int))
    (by simp [extract_unique_plays, extractUniqueGo, rowKey, dupRowA, dupRowB])
    (by simp [rowKey, dupRowA, dupRowB])

/-- Parsed payload of a successful ESPN response, per endpoint: a
scoreboard response carries the day's games; a summary response carries
the flattened play list and the (separately parsed, possibly failing)
game-info header. -/
inductive RespData where
  | scoreboard (games : List GameInfo)
  | summary (plays : List PlayInfo) (info : Option GameInfo)
deriving DecidableEq, Repr

/-- The network as a pure oracle: per URL, `none` models a request that
raises `requests.RequestException`; `some` a successful, parsed response. -/
def Net : Type := String → Option RespData

/-- Association-list lookup, first (most recent) binding winning —
the shallow embedding of a Python `dict` read. -/
def findA {α : Type} : List (String × α) → String → Option α
  | [], _ => none
  | (k, v) :: rest, key => if k = key then some v else findA rest key

/-- Mutable state of `ESPNClient` (`espn_client.py`, lines 47-70) plus the
mock wall clock the embedding threads for `time.time` / `time.sleep`. -/
structure ClientState where
  cache_enabled : Bool
  rate_limit_seconds : ℚ
  cache : List (String × RespData)
  last_request_time : ℚ
  clock : ℚ
deriving DecidableEq, Repr

/-- `ESPNClient.__init__` defaults (`espn_client.py`, lines 52-63), with
the mock clock started at `0`. -/
def ESPNClientInit : ClientState :=
  { cache_enabled := true, rate_limit_seconds := 0.5, cache := [],
    last_request_time := 0, clock := 0 }

/-- `ESPNClient._rate_limit` (`espn_client.py`, lines 65-70): sleep until
at least `rate_limit_seconds` elapsed since the previous request, then
record the current time. -/
def rateLimit (s : ClientState) : ClientState :=
  let elapsed := s.clock - s.last_request_time
  let s1 := if elapsed < s.rate_limit_seconds then
      { s with clock := s.clock + (s.rate_limit_seconds - elapsed) }
    else s
  { s1 with last_request_time := s1.clock }

/-- `ESPNClient._get` (`espn_client.py`, lines 72-101): cache check, rate
limit, request (taking `dur` mock seconds), memoize success.  The third
component lists the outbound (non-memoized) requests with their issue
times. -/
def clientGet (net : Net) (dur : ℚ) (url : String) (s : ClientState) :
    Option RespData × ClientState × List (String × ℚ) :=
  match (if s.cache_enabled then findA s.cache url else none) with
  | some r => (some r, s, [])
  | none =>
      let s1 := rateLimit s
      let t := s1.clock
      let s2 := { s1 with clock := s1.clock + dur }
      match net url with
      | some data =>
          (some data,
           if s2.cache_enabled then { s2 with cache := (url, data) :: s2.cache } else s2,
           [(url, t)])
      | none => (none, s2, [(url, t)])

/-- A sequence of `_get` calls issued with zero caller-side delay,
collecting every outbound request with its issue time. -/
def runGets (net : Net) : List (String × ℚ) → ClientState → ClientState × List (String × ℚ)
  | [], s => (s, [])
  | (url, dur) :: rest, s =>
      let r1 := clientGet net dur url s
      let r2 := runGets net rest r1.2.1
      (r2.1, r1.2.2 ++ r2.2)

/-- Event times are spaced at least `i` apart, the first one at least `i`
after `last`. -/
def gapOk (i : ℚ) (last : ℚ) : List (String × ℚ) → Prop
  | [] => True
  | e :: rest => i ≤ e.2 - last ∧ gapOk i e.2 rest

lemma rateLimit_gap (s : ClientState) :
    s.rate_limit_seconds ≤ (rateLimit s).clock - s.last_request_time := by
  unfold rateLimit
  dsimp only
  split_ifs with h
  · show s.rate_limit_seconds ≤
      s.clock + (s.rate_limit_seconds - (s.clock - s.last_request_time)) - s.last_request_time
    linarith
  · show s.rate_limit_seconds ≤ s.clock - s.last_request_time
    linarith

lemma rateLimit_last (s : ClientState) :
    (rateLimit s).last_request_time = (rateLimit s).clock := rfl

lemma rateLimit_rate (s : ClientState) :
    (rateLimit s).rate_limit_seconds = s.rate_limit_seconds := by
  unfold rateLimit
  dsimp only
  split_ifs <;> rfl

/-- Shape of one `_get` call: either a memoized hit (no event, state
untouched) or exactly one outbound event, issued at least the configured
interval after the previous request time and recorded as the new previous
request time. -/
lemma clientGet_shape (net : Net) (dur : ℚ) (url : String) (s : ClientState) :
    (clientGet net dur url s).2.2 = [] ∧ (clientGet net dur url s).2.1 = s ∨
    ∃ t, (clientGet net dur url s).2.2 = [(url, t)] ∧
      s.rate_limit_seconds ≤ t - s.last_request_time ∧
      ((clientGet net dur url s).2.1).last_request_time = t ∧
      ((clientGet net dur url s).2.1).rate_limit_seconds = s.rate_limit_seconds := by
  unfold clientGet
  cases hc : (if s.cache_enabled then findA s.cache url else none) with
  | some r => exact Or.inl ⟨rfl, rfl⟩
  | none =>
      refine Or.inr ⟨(rateLimit s).clock, ?_⟩
      cases hn : net url with
      | some data =>
          dsimp only
          refine ⟨rfl, rateLimit_gap s, ?_, ?_⟩ <;>
            (split_ifs <;> simp [rateLimit_last, rateLimit_rate])
      | none =>
          exact ⟨rfl, rateLimit_gap s, rateLimit_last s, rateLimit_rate s⟩

/-- Every run of `_get` calls produces outbound events spaced at least the
configured interval apart. -/
lemma runGets_gapOk (net : Net) :
    ∀ (reqs : List (String × ℚ)) (s : ClientState),
      gapOk s.rate_limit_seconds s.last_request_time (runGets net reqs s).2 := by
  intro reqs
  induction reqs with
  | nil => intro s; exact trivial
  | cons p rest ih =>
      intro s
      obtain ⟨url, dur⟩ := p
      show gapOk _ _ ((clientGet net dur url s).2.2 ++ (runGets net rest (clientGet net dur url s).2.1).2)
      rcases clientGet_shape net dur url s with ⟨hev, hst⟩ | ⟨t, hev, hgap, hlast, hrate⟩
      · rw [hev, hst]
        simpa using ih s
      · rw [hev]
        refine ⟨hgap, ?_⟩
        have := ih (clientGet net dur url s).2.1
        rwa [hrate, hlast] at this

lemma rateLimit_cache (s : ClientState) : (rateLimit s).cache = s.cache := by
  unfold rateLimit
  dsimp only
  split_ifs <;> rfl

lemma rateLimit_cache_enabled (s : ClientState) :
    (rateLimit s).cache_enabled = s.cache_enabled := by
  unfold rateLimit
  dsimp only
  split_ifs <;> rfl

/-- `gapOk` yields the pairwise consecutive-gap property. -/
lemma gapOk_chain' :
    ∀ (i last : ℚ) (l : List (String × ℚ)), gapOk i last l →
      List.Chain' (fun a b => i ≤ b.2 - a.2) l
  | _, _, [] => fun _ => List.chain'_nil
  | _, _, [_] => fun _ => List.chain'_singleton _
  | i, last, e1 :: e2 :: rest => fun h =>
      List.Chain'.cons h.2.1 (gapOk_chain' i e1.2 (e2 :: rest) h.2)

/-- C6: outbound (non-memoized) `_get` requests issued back to back are
separated by at least the configured minimum interval, under the single
shared per-client rate gate (the run ranges over arbitrary URLs, hence
over all endpoints); a request whose exact URL is memoized returns the
cached response and touches neither the network nor the rate gate (state
unchanged, no outbound event); a failed request is not memoized; and the
constructor default for the interval is `0.5` seconds. -/
theorem espn_client_rate_gate_and_memoization
    (net : Net) (reqs : List (String × ℚ)) (s : ClientState)
    (url1 url2 : String) (r : RespData) (d1 d2 : ℚ)
    (hce : s.cache_enabled = true)
    (hhit : findA s.cache url1 = some r)
    (hfail : net url2 = none) :
    List.Chain' (fun a b => s.rate_limit_seconds ≤ b.2 - a.2) (runGets net reqs s).2 ∧
    clientGet net d1 url1 s = (some r, s, []) ∧
    ((clientGet net d2 url2 s).2.1).cache = s.cache ∧
    ESPNClientInit.rate_limit_seconds = 0.5 := by
  refine ⟨gapOk_chain' _ _ _ (runGets_gapOk net reqs s), ?_, ?_, rfl⟩
  · unfold clientGet
    rw [hce]
    simp only [if_true, hhit]
  · unfold clientGet
    cases hc : (if s.cache_enabled then findA s.cache url2 else none) with
    | some r2 => rfl
    | none =>
        rw [hfail]
        dsimp only
        exact rateLimit_cache s

/-- Concrete network for the C6 witness: one known URL, everything else
failing. -/
def witnessNet : Net := fun url =>
  if url = "https://example/ok" then some (RespData.scoreboard []) else none

/-- Concrete client state for the C6 witness: one memoized URL. -/
def witnessClientState : ClientState :=
  { cache_enabled := true, rate_limit_seconds := 0.5,
    cache := [("https://example/cached", RespData.scoreboard [])],
    last_request_time := 0, clock := 0 }

/-- Witness for C6 at a concrete two-request run. -/
theorem espn_client_rate_gate_and_memoization_witness :
    List.Chain' (fun a b => witnessClientState.rate_limit_seconds ≤ b.2 - a.2)
      (runGets witnessNet [("https://example/ok", 0), ("https://example/fail", 0)]
        witnessClientState).2 ∧
    clientGet witnessNet 0 "https://example/cached" witnessClientState =
      (some (RespData.scoreboard []), witnessClientState, []) ∧
    ((clientGet witnessNet 0 "https://example/fail" witnessClientState).2.1).cache =
      witnessClientState.cache ∧
    ESPNClientInit.rate_limit_seconds = 0.5 :=
  espn_client_rate_gate_and_memoization witnessNet
    [("https://example/ok", 0), ("https://example/fail", 0)] witnessClientState
    "https://example/cached" "https://example/fail" (RespData.scoreboard []) 0 0
    rfl (by decide) (by decide)

/-- `TEAM_ALIASES` table of `game_mapper.py` (lines 25-66). -/
def TEAM_ALIASES : List (String × String) :=
  [("Arizona Cardinals", "ARI"), ("Atlanta Falcons", "ATL"),
   ("Baltimore Ravens", "BAL"), ("Buffalo Bills", "BUF"),
   ("Carolina Panthers", "CAR"), ("Chicago Bears", "CHI"),
   ("Cincinnati Bengals", "CIN"), ("Cleveland Browns", "CLE"),
   ("Dallas Cowboys", "DAL"), ("Denver Broncos", "DEN"),
   ("Detroit Lions", "DET"), ("Green Bay Packers", "GB"),
   ("Houston Texans", "HOU"), ("Indianapolis Colts", "IND"),
   ("Jacksonville Jaguars", "JAX"), ("Kansas City Chiefs", "KC"),
   ("Las Vegas Raiders", "LV"), ("Los Angeles Chargers", "LAC"),
   ("Los Angeles Rams", "LAR"), ("Miami Dolphins", "MIA"),
   ("Minnesota Vikings", "MIN"), ("New England Patriots", "NE"),
   ("New Orleans Saints", "NO"), ("New York Giants", "NYG"),
   ("New York Jets", "NYJ"), ("Philadelphia Eagles", "PHI"),
   ("Pittsburgh Steelers", "PIT"), ("San Francisco 49ers", "SF"),
   ("Seattle Seahawks", "SEA"), ("Tampa Bay Buccaneers", "TB"),
   ("Tennessee Titans", "TEN"), ("Washington Commanders", "WAS"),
   ("JAC", "JAX"), ("LA", "LAR"), ("OAK", "LV"), ("SD", "LAC"),
   ("STL", "LAR"), ("WSH", "WAS")]

/-- `GameMapper.normalize_team` (`game_mapper.py`, lines 154-174):
uppercase alias lookup, then exact lookup, then uppercase 3-letter
fallback. -/
def normalize_team (team_name : String) : String :=
  match findA TEAM_ALIASES team_name.toUpper with
  | some a => a
  | none =>
      match findA TEAM_ALIASES team_name with
      | some a => a
      | none => team_name.toUpper.take 3

/-- Value of a decimal digit, `none` otherwise. -/
def digitVal? (c : Char) : Option Nat :=
  if c.isDigit then some (c.toNat - '0'.toNat) else none

/-- Decimal reading of a non-empty, all-digit character list. -/
def digitsToNat? (cs : List Char) : Option Nat :=
  match cs with
  | [] => none
  | _ => cs.foldl (fun acc c => acc.bind (fun n => (digitVal? c).map (fun d => n * 10 + d))) (some 0)

/-- Python's `int(str)` on the inputs relevant here: an optional leading
minus sign followed by one or more decimal digits; anything else raises
`ValueError` (modelled as `none`). -/
def pyInt? (s : String) : Option Int :=
  match s.data with
  | '-' :: rest => (digitsToNat? rest).map (fun n => -(n : Int))
  | l => (digitsToNat? l).map (fun n => (n : Int))

/-- `GameMapper.parse_bdb_game_id` (`game_mapper.py`, lines 138-152):
first 8 characters are the date; the remaining characters, when present,
must parse as an integer (`int(...)` raises `ValueError` otherwise,
modelled as `Except.error`); sequence number defaults to 0. -/
def parse_bdb_game_id (bdb_game_id : String) : Except String (String × Int) :=
  let date := bdb_game_id.take 8
  if bdb_game_id.length > 8 then
    match pyInt? (bdb_game_id.drop 8) with
    | some n => .ok (date, n)
    | none => .error "ValueError"
  else .ok (date, 0)

/-- Python list indexing `l[i]`: nonnegative indices from the front,
negative indices from the back, `IndexError` when out of range. -/
def pyIndex {α : Type} (l : List α) (i : Int) : Except String α :=
  let j := if i < 0 then i + l.length else i
  if 0 ≤ j then
    match l.get? j.toNat with
    | some x => .ok x
    | none => .error "IndexError"
  else .error "IndexError"

/-- Scoreboard endpoint URL (`espn_client.py`, line 113). -/
def scoreboardUrl (date : String) : String :=
  "https://site.api.espn.com/apis/site/v2/sports/football/nfl/scoreboard?dates=" ++ date

/-- Summary endpoint URL (`espn_client.py`, line 159). -/
def summaryUrl (espn_game_id : String) : String :=
  "https://site.api.espn.com/apis/site/v2/sports/football/nfl/summary?event=" ++ espn_game_id

/-- `ESPNClient.get_scoreboard` (`espn_client.py`, lines 103-147): one
`_get` on the scoreboard URL; a failed request or a response without the
expected shape yields the empty list. -/
def get_scoreboard (net : Net) (dur : ℚ) (date : String) (s : ClientState) :
    List GameInfo × ClientState × List (String × ℚ) :=
  let r := clientGet net dur (scoreboardUrl date) s
  match r.1 with
  | some (RespData.scoreboard games) => (games, r.2.1, r.2.2)
  | some (RespData.summary _ _) => ([], r.2.1, r.2.2)
  | none => ([], r.2.1, r.2.2)

/-- Combined mutable state of one pipeline run: the shared `ESPNClient`,
the `GameMapper._mappings` dict, and the `PlayMatcher` per-game caches. -/
structure SysState where
  client : ClientState
  mappings : List (String × GameMapping)
  espn_plays_cache : List (String × List PlayInfo)
  game_info_cache : List (String × GameInfo)
deriving DecidableEq, Repr

/-- Team-hint matching loop of `GameMapper.get_mapping`
(`game_mapper.py`, lines 206-217): first provider game whose normalized
pair equals the normalized hint pair in either orientation. -/
def hint_match (games : List GameInfo) (teams : Option (String × String)) :
    Option GameInfo :=
  match teams with
  | none => none
  | some t =>
      let home_abbrev := normalize_team t.1
      let away_abbrev := normalize_team t.2
      games.find? (fun g =>
        (normalize_team g.home_team_abbrev == home_abbrev &&
           normalize_team g.away_team_abbrev == away_abbrev) ||
        (normalize_team g.home_team_abbrev == away_abbrev &&
           normalize_team g.away_team_abbrev == home_abbrev))

/-- Candidate-selection chain of `GameMapper.get_mapping`
(`game_mapper.py`, lines 204-229): team-hint match, then
`if game_num < len(games): games[game_num]` (Python indexing), then the
single-game-day fallback `games[0]`, else no game. -/
def selectGameSrc (games : List GameInfo) (teams : Option (String × String))
    (game_num : Int) : Except String (Option GameInfo) :=
  match hint_match games teams with
  | some g => .ok (some g)
  | none =>
      if game_num < (games.length : Int) then (pyIndex games game_num).map some
      else if games.length = 1 then .ok games.head?
      else .ok none

/-- `GameMapping` construction of `GameMapper.get_mapping`
(`game_mapper.py`, lines 232-241). -/
def mkGameMapping (bdb_game_id date : String) (g : GameInfo) : GameMapping :=
  { bdb_game_id := bdb_game_id, espn_game_id := g.espn_id, date := date,
    home_team := g.home_team, home_team_abbrev := g.home_team_abbrev,
    away_team := g.away_team, away_team_abbrev := g.away_team_abbrev,
    stadium := g.stadium }

/-- `GameMapper.get_mapping` (`game_mapper.py`, lines 176-246): cache
check, id parse, schedule fetch, selection, cache insert.  The event list
records the outbound requests the call issued.  (`_save_cache` writes the
same in-memory dict to disk and has no further in-memory effect, so it
does not appear in the embedding.) -/
def getMapping (net : Net) (dur : ℚ) (bdb_game_id : String)
    (teams : Option (String × String)) (st : SysState) :
    Except String (Option GameMapping × SysState × List (String × ℚ)) :=
  match findA st.mappings bdb_game_id with
  | some m => .ok (some m, st, [])
  | none =>
      match parse_bdb_game_id bdb_game_id with
      | .error e => .error e
      | .ok (date, game_num) =>
          let r := get_scoreboard net dur date st.client
          if r.1.isEmpty then .ok (none, { st with client := r.2.1 }, r.2.2)
          else
            match selectGameSrc r.1 teams game_num with
            | .error e => .error e
            | .ok none => .ok (none, { st with client := r.2.1 }, r.2.2)
            | .ok (some g) =>
                let mapping := mkGameMapping bdb_game_id date g
                .ok (some mapping,
                  { st with client := r.2.1,
                            mappings := (bdb_game_id, mapping) :: st.mappings },
                  r.2.2)

lemma pyIndex_ok_nonneg {α : Type} (l : List α) (i : Int)
    (h0 : 0 ≤ i) (h1 : i < (l.length : Int)) :
    pyIndex l i = Except.ok (l.get ⟨i.toNat, by omega⟩) := by
  unfold pyIndex
  dsimp only
  rw [if_neg (by omega : ¬ i < 0), if_pos h0,
    List.get?_eq_get (by omega : i.toNat < l.length)]

lemma pyIndex_ok_neg {α : Type} (l : List α) (i : Int)
    (h0 : -(l.length : Int) ≤ i) (h1 : i < 0) :
    pyIndex l i = Except.ok (l.get ⟨(i + l.length).toNat, by omega⟩) := by
  unfold pyIndex
  dsimp only
  rw [if_pos h1, if_pos (by omega : (0 : Int) ≤ i + l.length),
    List.get?_eq_get (by omega : (i + (l.length : Int)).toNat < l.length)]

lemma pyIndex_err_low {α : Type} (l : List α) (i : Int)
    (h : i < -(l.length : Int)) :
    pyIndex l i = Except.error "IndexError" := by
  unfold pyIndex
  dsimp only
  rw [if_pos (by omega : i < 0), if_neg (by omega : ¬ (0 : Int) ≤ i + l.length)]

/-- The selection priority as amended (C4): team-hint match first; then,
for a sequence number below the schedule length, Python indexing — from
the front when nonnegative, from the back when negative but within range,
an uncaught `IndexError` when below `-length`; then the single-game-day
fallback; else no game. -/
def selectGameAmended (games : List GameInfo) (teams : Option (String × String))
    (n : Int) : Except String (Option GameInfo) :=
  match hint_match games teams with
  | some g => .ok (some g)
  | none =>
      if 0 ≤ n ∧ n < (games.length : Int) then .ok (games.get? n.toNat)
      else if -(games.length : Int) ≤ n ∧ n < 0 then .ok (games.get? (n + games.length).toNat)
      else if n < -(games.length : Int) then .error "IndexError"
      else if games.length = 1 then .ok games.head?
      else .ok none

/-- The selection priority exactly as the claim states it (C4): team-hint
match; else the game at the sequence number when that is a valid index
into the schedule; else the single game of a single-game day; else no
game (and never an error). -/
def selectGameClaim (games : List GameInfo) (teams : Option (String × String))
    (n : Int) : Option GameInfo :=
  match hint_match games teams with
  | some g => some g
  | none =>
      if 0 ≤ n ∧ n < (games.length : Int) then games.get? n.toNat
      else if games.length = 1 then games.head?
      else none

/-- The source's selection chain equals the amended selection. -/
lemma selectGameSrc_eq_amended (games : List GameInfo)
    (teams : Option (String × String)) (n : Int) :
    selectGameSrc games teams n = selectGameAmended games teams n := by
  unfold selectGameSrc selectGameAmended
  cases hm : hint_match games teams with
  | some g => rfl
  | none =>
      dsimp only
      by_cases h1 : 0 ≤ n ∧ n < (games.length : Int)
      · rw [if_pos h1, if_pos h1.2, pyIndex_ok_nonneg games n h1.1 h1.2,
          List.get?_eq_get (by omega : n.toNat < games.length)]
        rfl
      · rw [if_neg h1]
        by_cases h2 : -(games.length : Int) ≤ n ∧ n < 0
        · rw [if_pos h2, if_pos (by omega : n < (games.length : Int)),
            pyIndex_ok_neg games n h2.1 h2.2,
            List.get?_eq_get (by omega : (n + (games.length : Int)).toNat < games.length)]
          rfl
        · rw [if_neg h2]
          by_cases h3 : n < -(games.length : Int)
          · rw [if_pos h3, if_pos (by omega : n < (games.length : Int)),
              pyIndex_err_low games n h3]
            rfl
          · rw [if_neg h3, if_neg (by omega : ¬ n < (games.length : Int))]

/-- C4 amended theorem (proved below): for every uncached id whose date's
schedule fetch returns a non-empty list, `get_mapping` realizes the
amended selection priority `selectGameAmended` — team-hint match first;
then Python indexing for any sequence number below the schedule length
(negative numbers select from the end, numbers below `-length` raise an
uncaught `IndexError`); then the single-game-day fallback; else no
mapping — caching the mapping exactly on success. -/
theorem get_mapping_selection_amended
    (net : Net) (dur : ℚ) (bdb_game_id : String) (teams : Option (String × String))
    (st : SysState) (date : String) (game_num : Int) (games : List GameInfo)
    (cs' : ClientState) (evs : List (String × ℚ))
    (hu : findA st.mappings bdb_game_id = none)
    (hp : parse_bdb_game_id bdb_game_id = .ok (date, game_num))
    (hs : get_scoreboard net dur date st.client = (games, cs', evs))
    (hne : games ≠ []) :
    getMapping net dur bdb_game_id teams st =
      match selectGameAmended games teams game_num with
      | .error e => .error e
      | .ok none => .ok (none, { st with client := cs' }, evs)
      | .ok (some g) => .ok (some (mkGameMapping bdb_game_id date g),
          { st with
              client := cs'
              mappings := (bdb_game_id, mkGameMapping bdb_game_id date g) :: st.mappings },
          evs) := by
  unfold getMapping
  rw [hu, hp]
  dsimp only
  rw [hs]
  dsimp only
  have hemp : games.isEmpty = false := by
    cases games with
    | nil => exact absurd rfl hne
    | cons a l => rfl
  rw [hemp]
  rw [selectGameSrc_eq_amended]
  cases hsel : selectGameAmended games teams game_num with
  | error e => rfl
  | ok o => cases o <;> rfl

/-- Fresh pipeline state: fresh client, empty mapper and matcher caches. -/
def sysInit : SysState :=
  { client := ESPNClientInit, mappings := [], espn_plays_cache := [],
    game_info_cache := [] }

/-- Concrete scheduled game used in counterexamples and witnesses. -/
def gameA : GameInfo :=
  { espn_id := "401547353", date := "2023-09-07", home_team := "Kansas City Chiefs",
    home_team_abbrev := "KC", away_team := "Detroit Lions", away_team_abbrev := "DET",
    stadium := "GEHA Field at Arrowhead Stadium", home_score := 20, away_score := 21,
    status := "STATUS_FINAL" }

/-- Second concrete scheduled game on the same date. -/
def gameB : GameInfo :=
  { espn_id := "401547403", date := "2023-09-07", home_team := "New York Giants",
    home_team_abbrev := "NYG", away_team := "Dallas Cowboys", away_team_abbrev := "DAL",
    stadium := "MetLife Stadium", home_score := 0, away_score := 40,
    status := "STATUS_FINAL" }

/-- Oracle serving a two-game schedule for 2023-09-07 and failing all
other requests. -/
def netTwoGames : Net := fun url =>
  if url = scoreboardUrl "20230907" then some (RespData.scoreboard [gameA, gameB])
  else none

/-- Oracle on which every request fails. -/
def netFail : Net := fun _ => none

/-- The ESPN id of a successful mapping result. -/
def mappingEspn :
    Except String (Option GameMapping × SysState × List (String × ℚ)) → Option String
  | .ok (some m, _, _) => some m.espn_game_id
  | _ => none

/-- The state component of a successful `getMapping` result. -/
def resultState (dflt : SysState) :
    Except String (Option GameMapping × SysState × List (String × ℚ)) → SysState
  | .ok x => x.2.1
  | .error _ => dflt

/-- The outbound-event component of a `getMapping` result. -/
def resultEvents :
    Except String (Option GameMapping × SysState × List (String × ℚ)) → List (String × ℚ)
  | .ok x => x.2.2
  | .error _ => []

/-- C4 counterexample: for the uncached id `"20230907-1"` on a two-game
day (schedule `[gameA, gameB]`), the parsed sequence number `-1` is not a
valid index in the claim's sense — the claim's priority yields no
mapping — yet `get_mapping` returns a mapping for `gameB`, because the
source's guard `game_num < len(games)` admits negative numbers and Python
indexes them from the end of the list. -/
theorem get_mapping_selection_counterexample :
    mappingEspn (getMapping netTwoGames 0 "20230907-1" none sysInit) = some "401547403" ∧
    selectGameClaim [gameA, gameB] none (-1) = none := by
  constructor <;> rfl

/-- Witness for C4's amended theorem: id `"2023090701"` on the two-game
day selects the game at index 1. -/
theorem get_mapping_selection_amended_witness :
    getMapping netTwoGames 0 "2023090701" none sysInit =
      match selectGameAmended [gameA, gameB] none 1 with
      | .error e => .error e
      | .ok none => .ok (none,
          { sysInit with client := (get_scoreboard netTwoGames 0 "20230907" sysInit.client).2.1 },
          (get_scoreboard netTwoGames 0 "20230907" sysInit.client).2.2)
      | .ok (some g) => .ok (some (mkGameMapping "2023090701" "20230907" g),
          { sysInit with
              client := (get_scoreboard netTwoGames 0 "20230907" sysInit.client).2.1
              mappings := ("2023090701", mkGameMapping "2023090701" "20230907" g) :: sysInit.mappings },
          (get_scoreboard netTwoGames 0 "20230907" sysInit.client).2.2) :=
  get_mapping_selection_amended netTwoGames 0 "2023090701" none sysInit "20230907" 1
    [gameA, gameB]
    (get_scoreboard netTwoGames 0 "20230907" sysInit.client).2.1
    (get_scoreboard netTwoGames 0 "20230907" sysInit.client).2.2
    rfl rfl rfl (by simp)

/-- A successful `get_mapping` leaves the returned mapping keyed under its
id in the mapper cache. -/
lemma getMapping_success_mem (net : Net) (dur : ℚ) (id : String)
    (teams : Option (String × String)) (st st1 : SysState) (m : GameMapping)
    (evs : List (String × ℚ))
    (h1 : getMapping net dur id teams st = .ok (some m, st1, evs)) :
    findA st1.mappings id = some m := by
  unfold getMapping at h1
  cases hc : findA st.mappings id with
  | some m0 =>
      rw [hc] at h1
      simp only [Except.ok.injEq, Prod.mk.injEq] at h1
      obtain ⟨hm, hst, -⟩ := h1
      rw [← hst, hc]
      rw [hm]
  | none =>
      rw [hc] at h1
      cases hpp : parse_bdb_game_id id with
      | error e => rw [hpp] at h1; exact absurd h1 (by simp)
      | ok p =>
          obtain ⟨date, game_num⟩ := p
          rw [hpp] at h1
          dsimp only at h1
          split at h1
          · simp at h1
          · split at h1
            · simp at h1
            · simp at h1
            · rename_i g heq
              simp only [Except.ok.injEq, Prod.mk.injEq] at h1
              obtain ⟨hm, hst, -⟩ := h1
              rw [← hst]
              show findA ((id, mkGameMapping id date g) :: st.mappings) id = some m
              rw [show findA ((id, mkGameMapping id date g) :: st.mappings) id =
                    some (mkGameMapping id date g) from by simp [findA]]
              rw [hm]

/-- A failed `get_mapping` lookup adds nothing to the mapper cache. -/
lemma getMapping_failure_mappings (net : Net) (dur : ℚ) (id : String)
    (teams : Option (String × String)) (st st2 : SysState)
    (evs2 : List (String × ℚ))
    (h2 : getMapping net dur id teams st = .ok (none, st2, evs2)) :
    st2.mappings = st.mappings := by
  unfold getMapping at h2
  cases hc : findA st.mappings id with
  | some m0 => rw [hc] at h2; simp at h2
  | none =>
      rw [hc] at h2
      cases hpp : parse_bdb_game_id id with
      | error e => rw [hpp] at h2; exact absurd h2 (by simp)
      | ok p =>
          obtain ⟨date, game_num⟩ := p
          rw [hpp] at h2
          dsimp only at h2
          split at h2
          · simp only [Except.ok.injEq, Prod.mk.injEq] at h2
            obtain ⟨-, hst, -⟩ := h2
            rw [← hst]
          · split at h2
            · simp at h2
            · simp only [Except.ok.injEq, Prod.mk.injEq] at h2
              obtain ⟨-, hst, -⟩ := h2
              rw [← hst]
            · simp at h2

/-- C5: once `get_mapping` has succeeded for an id, a second call for the
same id returns the identical `GameMapping` from the in-memory cache,
issuing no schedule fetch (empty event list) and leaving the state
untouched; and a failed lookup never adds a mapping to the cache. -/
theorem get_mapping_idempotent_no_failure_caching
    (net : Net) (dur dur2 dur3 : ℚ) (id id2 : String)
    (teams teams2 : Option (String × String))
    (st st1 st2 : SysState) (m : GameMapping) (evs evs2 : List (String × ℚ))
    (h1 : getMapping net dur id teams st = .ok (some m, st1, evs))
    (h2 : getMapping net dur2 id2 teams2 st = .ok (none, st2, evs2)) :
    getMapping net dur3 id teams st1 = .ok (some m, st1, []) ∧
    st2.mappings = st.mappings := by
  constructor
  · have hf := getMapping_success_mem net dur id teams st st1 m evs h1
    unfold getMapping
    rw [hf]
  · exact getMapping_failure_mappings net dur2 id2 teams2 st st2 evs2 h2

/-- One `get_mapping` call whose schedule fetch fails issues exactly one
outbound request (no retry within the call), returns no mapping, and
leaves mapper cache and response cache as they were, the failure being
memoized nowhere. -/
lemma getMapping_fetch_failure (net : Net) (dur : ℚ) (id : String)
    (teams : Option (String × String)) (st : SysState) (date : String) (n : Int)
    (hp : parse_bdb_game_id id = .ok (date, n))
    (hu : findA st.mappings id = none)
    (hnc : findA st.client.cache (scoreboardUrl date) = none)
    (hfail : net (scoreboardUrl date) = none) :
    getMapping net dur id teams st =
      .ok (none,
        { st with client :=
            { rateLimit st.client with clock := (rateLimit st.client).clock + dur } },
        [(scoreboardUrl date, (rateLimit st.client).clock)]) := by
  unfold getMapping
  rw [hu, hp]
  dsimp only
  unfold get_scoreboard clientGet
  have hlook : (if st.client.cache_enabled = true
      then findA st.client.cache (scoreboardUrl date) else none) = none := by
    cases st.client.cache_enabled
    · rfl
    · simpa using hnc
  rw [hlook, hfail]
  rfl

/-- C7 amended theorem: within one `get_mapping` call, a failed schedule
fetch for a date is attempted exactly once (no retry inside the call),
but the failure is not memoized, so a later `get_mapping` call for the
same date on the resulting state issues a new schedule fetch for that
date. -/
theorem get_mapping_failed_fetch_refetched
    (net : Net) (dur dur2 : ℚ) (id : String)
    (teams teams2 : Option (String × String)) (st : SysState)
    (date : String) (n : Int)
    (hp : parse_bdb_game_id id = .ok (date, n))
    (hu : findA st.mappings id = none)
    (hnc : findA st.client.cache (scoreboardUrl date) = none)
    (hfail : net (scoreboardUrl date) = none) :
    ∃ st1 t1, getMapping net dur id teams st =
        .ok (none, st1, [(scoreboardUrl date, t1)]) ∧
      ∃ st2 t2, getMapping net dur2 id teams2 st1 =
        .ok (none, st2, [(scoreboardUrl date, t2)]) := by
  refine ⟨_, _, getMapping_fetch_failure net dur id teams st date n hp hu hnc hfail, ?_⟩
  refine ⟨_, _, getMapping_fetch_failure net dur2 id teams2 _ date n hp ?_ ?_ hfail⟩
  · exact hu
  · show findA (rateLimit st.client).cache (scoreboardUrl date) = none
    rw [rateLimit_cache]
    exact hnc

/-- Witness for C7's amended theorem: a fresh mapper against an
all-failing network. -/
theorem get_mapping_failed_fetch_refetched_witness :
    ∃ st1 t1, getMapping netFail 0 "2023090700" none sysInit =
        .ok (none, st1, [(scoreboardUrl "20230907", t1)]) ∧
      ∃ st2 t2, getMapping netFail 0 "2023090700" none st1 =
        .ok (none, st2, [(scoreboardUrl "20230907", t2)]) :=
  get_mapping_failed_fetch_refetched netFail 0 0 "2023090700" none none sysInit
    "20230907" 0 rfl rfl rfl rfl

/-- Second `get_mapping` call for the same id, on the state produced by a
first call against the all-failing network. -/
def mapperSecondCallAfterFailure :
    Except String (Option GameMapping × SysState × List (String × ℚ)) :=
  match getMapping netFail 0 "2023090700" none sysInit with
  | .ok x => getMapping netFail 0 "2023090700" none x.2.1
  | .error e => .error e

/-- C7 counterexample: the claim says a failed schedule fetch for a date
is never retried within the process run, yet after the first failing
call the very next `get_mapping` call for the same date issues the same
schedule fetch again (one outbound request to the date's scoreboard URL
in each call). -/
theorem get_mapping_failure_retried_counterexample :
    (getMapping netFail 0 "2023090700" none sysInit).map
        (fun x => x.2.2.map Prod.fst) = .ok [scoreboardUrl "20230907"] ∧
    (mapperSecondCallAfterFailure.map (fun x => x.2.2.map Prod.fst) =
      .ok [scoreboardUrl "20230907"]) := by
  have h1 := getMapping_fetch_failure netFail 0 "2023090700" none sysInit
    "20230907" 0 rfl rfl rfl rfl
  have h2 := getMapping_fetch_failure netFail 0 "2023090700" none
      { sysInit with client :=
          { rateLimit sysInit.client with clock := (rateLimit sysInit.client).clock + 0 } }
      "20230907" 0 rfl rfl
      (by
        show findA (rateLimit sysInit.client).cache (scoreboardUrl "20230907") = none
        rw [rateLimit_cache]
        rfl)
      rfl
  constructor
  · rw [h1]
    rfl
  · unfold mapperSecondCallAfterFailure
    rw [h1]
    dsimp only
    rw [h2]
    rfl

/-- Witness for C5: a successful mapping for `"2023090700"` against the
two-game schedule is answered from the cache on the second call, and the
failing lookup for `"1999010100"` leaves the mapper cache empty. -/
theorem get_mapping_idempotent_no_failure_caching_witness :
    getMapping netTwoGames 0 "2023090700" none
        (resultState sysInit (getMapping netTwoGames 0 "2023090700" none sysInit)) =
      .ok (some (mkGameMapping "2023090700" "20230907" gameA),
        resultState sysInit (getMapping netTwoGames 0 "2023090700" none sysInit), []) ∧
    (resultState sysInit (getMapping netTwoGames 0 "1999010100" none sysInit)).mappings =
      sysInit.mappings :=
  get_mapping_idempotent_no_failure_caching netTwoGames 0 0 0 "2023090700" "1999010100"
    none none sysInit
    (resultState sysInit (getMapping netTwoGames 0 "2023090700" none sysInit))
    (resultState sysInit (getMapping netTwoGames 0 "1999010100" none sysInit))
    (mkGameMapping "2023090700" "20230907" gameA)
    (resultEvents (getMapping netTwoGames 0 "2023090700" none sysInit))
    (resultEvents (getMapping netTwoGames 0 "1999010100" none sysInit))
    rfl rfl

/-- `ESPNClient.get_plays` (`espn_client.py`, lines 162-213) composed with
`get_game_summary`: one `_get` on the summary URL; the drive-flattened,
chronologically ordered play list is the summary payload's play list; a
failed request or unexpected shape yields the empty list. -/
def getPlaysC (net : Net) (dur : ℚ) (espn_game_id : String) (s : ClientState) :
    List PlayInfo × ClientState × List (String × ℚ) :=
  let r := clientGet net dur (summaryUrl espn_game_id) s
  match r.1 with
  | some (RespData.summary plays _) => (plays, r.2.1, r.2.2)
  | some (RespData.scoreboard _) => ([], r.2.1, r.2.2)
  | none => ([], r.2.1, r.2.2)

/-- `ESPNClient.get_game_info` (`espn_client.py`, lines 215-255): one
`_get` on the same summary URL; the game-info header parse may fail
independently of the play list (`none`). -/
def getGameInfoC (net : Net) (dur : ℚ) (espn_game_id : String) (s : ClientState) :
    Option GameInfo × ClientState × List (String × ℚ) :=
  let r := clientGet net dur (summaryUrl espn_game_id) s
  match r.1 with
  | some (RespData.summary _ info) => (info, r.2.1, r.2.2)
  | some (RespData.scoreboard _) => (none, r.2.1, r.2.2)
  | none => (none, r.2.1, r.2.2)

/-- `PlayMatcher._get_espn_plays` (`play_matcher.py`, lines 72-76):
per-game play cache in front of the client. -/
def getEspnPlays (net : Net) (dur : ℚ) (espn_game_id : String) (st : SysState) :
    List PlayInfo × SysState :=
  match findA st.espn_plays_cache espn_game_id with
  | some ps => (ps, st)
  | none =>
      let r := getPlaysC net dur espn_game_id st.client
      (r.1, { st with
          client := r.2.1
          espn_plays_cache := (espn_game_id, r.1) :: st.espn_plays_cache })

/-- `PlayMatcher._get_game_info` (`play_matcher.py`, lines 78-84):
per-game info cache in front of the client; only a present info is
cached. -/
def getGameInfoM (net : Net) (dur : ℚ) (espn_game_id : String) (st : SysState) :
    Option GameInfo × SysState :=
  match findA st.game_info_cache espn_game_id with
  | some gi => (some gi, st)
  | none =>
      let r := getGameInfoC net dur espn_game_id st.client
      match r.1 with
      | some g => (some g, { st with
          client := r.2.1
          game_info_cache := (espn_game_id, g) :: st.game_info_cache })
      | none => (none, { st with client := r.2.1 })

/-- Sequence distance of `PlayMatcher.match_play` (`play_matcher.py`,
line 240): `abs(idx - (play_sequence_hint or 0)) if play_sequence_hint
else idx` — note a hint of `0` is falsy in Python, so it behaves like no
hint (both give distance `idx`, which equals `|idx - 0|`). -/
def seqDistance (idx : Nat) (hint : Option Int) : Int :=
  match hint with
  | some h => if h ≠ 0 then |(idx : Int) - h| else (idx : Int)
  | none => (idx : Int)

/-- Argument record of `PlayMatcher.match_play` (`play_matcher.py`,
lines 184-193). -/
structure MatchArgs where
  game_id : String
  play_id : Int
  absolute_yardline : Int
  play_direction : String
  ball_land_x : ℚ
  ball_land_y : ℚ
  num_frames : Int
  play_sequence_hint : Option Int
deriving DecidableEq, Repr

/-- `EnrichedPlay` construction of `PlayMatcher.match_play`
(`play_matcher.py`, lines 260-288). -/
def mkEnrichedPlay (gm : GameMapping) (a : MatchArgs) (bm : PlayInfo)
    (best_score : ℚ) : EnrichedPlay :=
  { game_id := a.game_id, play_id := a.play_id,
    absolute_yardline := a.absolute_yardline,
    play_direction := a.play_direction, ball_land_x := a.ball_land_x,
    ball_land_y := a.ball_land_y, num_frames := a.num_frames,
    quarter := bm.quarter, game_clock := bm.clock, down := bm.down,
    yards_to_go := bm.distance, play_description := bm.play_text,
    play_type := bm.play_type, scoring_play := bm.scoring_play,
    home_team := gm.home_team, away_team := gm.away_team,
    stadium := gm.stadium, home_score := bm.home_score,
    away_score := bm.away_score, match_confidence := best_score }

/-- Score of one indexed candidate, as computed inside the loop of
`match_play` (`play_matcher.py`, lines 240-248). -/
def candScore (ayl : Int) (dir : String) (hint : Option Int)
    (ip : Nat × PlayInfo) : ℚ :=
  calculate_match_score ayl ip.2.yard_line dir ip.2.down (seqDistance ip.1 hint)

/-- Best-candidate loop of `match_play` (`play_matcher.py`, lines
229-253): running strict-improvement maximum over the enumerated plays,
skipping candidates with `yard_line == 0 and down == 0`, starting from
`(None, 0.0)`.  (The loop also tracks `best_sequence_idx`, which the
source never reads afterwards.) -/
def bestFold (ayl : Int) (dir : String) (hint : Option Int)
    (plays : List PlayInfo) : Option PlayInfo × ℚ :=
  plays.enum.foldl (fun acc ip =>
    if ip.2.yard_line = 0 ∧ ip.2.down = 0 then acc
    else if candScore ayl dir hint ip > acc.2 then (some ip.2, candScore ayl dir hint ip)
    else acc)
    (none, 0)

/-- Selection and threshold of `match_play` after the lookups
(`play_matcher.py`, lines 229-288): run the loop, fail when no best match
or score below `0.3`, else assemble the enriched play with
`match_confidence = best_score`. -/
def matchPlayCore (gm : GameMapping) (plays : List PlayInfo) (a : MatchArgs) :
    Option EnrichedPlay :=
  let r := bestFold a.absolute_yardline a.play_direction a.play_sequence_hint plays
  match r.1 with
  | none => none
  | some bm => if r.2 < 0.3 then none else some (mkEnrichedPlay gm a bm r.2)

/-- Post-mapping stage of `PlayMatcher.match_play` (`play_matcher.py`,
lines 217-288): fetch the game's plays, fail on an empty list, fetch (and
discard into the cache) the game info, then select. -/
def matchPlayLookups (net : Net) (dur : ℚ) (a : MatchArgs) (gm : GameMapping)
    (st1 : SysState) : Option EnrichedPlay × SysState :=
  let rp := getEspnPlays net dur gm.espn_game_id st1
  if rp.1.isEmpty then (none, rp.2)
  else
    let rg := getGameInfoM net dur gm.espn_game_id rp.2
    (matchPlayCore gm rp.1 a, rg.2)

/-- `PlayMatcher.match_play` (`play_matcher.py`, lines 184-288): resolve
the mapping (no team hints), then the lookup-and-select stage.  A `None`
from any stage is the no-match result; an uncaught exception propagates
as `Except.error`. -/
def match_play (net : Net) (dur : ℚ) (a : MatchArgs) (st : SysState) :
    Except String (Option EnrichedPlay × SysState) :=
  match getMapping net dur a.game_id none st with
  | .error e => .error e
  | .ok (none, st1, _) => .ok (none, st1)
  | .ok (some gm, st1, _) => .ok (matchPlayLookups net dur a gm st1)

/-- One dict of the `match_plays_batch` input (`play_matcher.py`,
lines 290-302). -/
structure BatchPlay where
  game_id : String
  play_id : Int
  absolute_yardline : Int
  play_direction : String
  ball_land_x : ℚ
  ball_land_y : ℚ
  num_frames : Int
deriving DecidableEq, Repr

/-- Append a play to its game's group, preserving first-occurrence group
order (a Python dict of lists). -/
def insertGroup : List (String × List BatchPlay) → String → BatchPlay →
    List (String × List BatchPlay)
  | [], k, p => [(k, [p])]
  | (k0, ps) :: rest, k, p =>
      if k0 = k then (k0, ps ++ [p]) :: rest
      else (k0, ps) :: insertGroup rest k p

/-- Grouping step of `match_plays_batch` (`play_matcher.py`, lines
306-312). -/
def groupByGame (plays : List BatchPlay) : List (String × List BatchPlay) :=
  plays.foldl (fun acc p => insertGroup acc p.game_id p) []

/-- Inner loop of `match_plays_batch` (`play_matcher.py`, lines 317-330):
match each play of one game's group, the position within the group being
the sequence hint; collect the successful matches; an exception
propagates. -/
def matchGroup (net : Net) (dur : ℚ) (game_id : String) :
    List BatchPlay → Nat → SysState → List EnrichedPlay →
    Except String (List EnrichedPlay × SysState)
  | [], _, st, acc => .ok (acc, st)
  | p :: rest, seq_idx, st, acc =>
      match match_play net dur
          { game_id := game_id, play_id := p.play_id,
            absolute_yardline := p.absolute_yardline,
            play_direction := p.play_direction, ball_land_x := p.ball_land_x,
            ball_land_y := p.ball_land_y, num_frames := p.num_frames,
            play_sequence_hint := some (seq_idx : Int) } st with
      | .error e => .error e
      | .ok (some e, st1) => matchGroup net dur game_id rest (seq_idx + 1) st1 (acc ++ [e])
      | .ok (none, st1) => matchGroup net dur game_id rest (seq_idx + 1) st1 acc

/-- Outer loop of `match_plays_batch` over the game groups. -/
def matchGroups (net : Net) (dur : ℚ) :
    List (String × List BatchPlay) → SysState → List EnrichedPlay →
    Except String (List EnrichedPlay × SysState)
  | [], st, acc => .ok (acc, st)
  | (gid, ps) :: rest, st, acc =>
      match matchGroup net dur gid ps 0 st acc with
      | .error e => .error e
      | .ok (acc1, st1) => matchGroups net dur rest st1 acc1

/-- `PlayMatcher.match_plays_batch` (`play_matcher.py`, lines 290-332):
group by game, then match group by group.  The source has no exception
handling here, so an uncaught exception from any single play aborts the
whole call (`Except.error`). -/
def match_plays_batch (net : Net) (dur : ℚ) (plays : List BatchPlay)
    (st : SysState) : Except String (List EnrichedPlay × SysState) :=
  matchGroups net dur (groupByGame plays) st []

/-- Candidates that survive the `yard_line == 0 and down == 0` filter,
paired with their chronological index (C2). -/
def filteredCandidates (plays : List PlayInfo) : List (Nat × PlayInfo) :=
  plays.enum.filter (fun ip => decide (¬(ip.2.yard_line = 0 ∧ ip.2.down = 0)))

/-- Running maximum of `f` over a list, seeded with `s`. -/
def maxFoldQ {α : Type} (f : α → ℚ) (l : List α) (s : ℚ) : ℚ :=
  l.foldl (fun m x => max m (f x)) s

/-- Strict-improvement selection fold: keep the first element whose score
strictly exceeds everything before it, remembering `g` of it. -/
def pickFold {α β : Type} (f : α → ℚ) (g : α → β) (l : List α)
    (acc : Option β × ℚ) : Option β × ℚ :=
  l.foldl (fun acc x => if f x > acc.2 then (some (g x), f x) else acc) acc

/-- Maximum score over all filtered candidates (seeded with the loop's
initial `best_score = 0.0`). -/
def maxCandScore (ayl : Int) (dir : String) (hint : Option Int)
    (plays : List PlayInfo) : ℚ :=
  maxFoldQ (candScore ayl dir hint) (filteredCandidates plays) 0

/-- A fold that skips `P`-elements equals the fold over the filtered
list. -/
lemma foldl_skip_eq_filter {α σ : Type} (P : α → Prop) [DecidablePred P]
    (step : σ → α → σ) :
    ∀ (l : List α) (acc : σ),
      l.foldl (fun acc x => if P x then acc else step acc x) acc =
        (l.filter (fun x => decide (¬ P x))).foldl step acc := by
  intro l
  induction l with
  | nil => intro acc; rfl
  | cons x t ih =>
      intro acc
      by_cases hx : P x
      · simp only [List.foldl_cons, if_pos hx, List.filter_cons,
          decide_eq_true_eq, hx, not_true, decide_False]
        exact ih acc
      · simp only [List.foldl_cons, if_neg hx, List.filter_cons,
          decide_eq_true_eq, hx, not_false_iff, decide_True]
        exact ih (step acc x)

lemma pickFold_snd {α β : Type} (f : α → ℚ) (g : α → β) :
    ∀ (l : List α) (acc : Option β × ℚ),
      (pickFold f g l acc).2 = maxFoldQ f l acc.2 := by
  intro l
  induction l with
  | nil => intro acc; rfl
  | cons x t ih =>
      intro acc
      show (pickFold f g t (if f x > acc.2 then (some (g x), f x) else acc)).2 =
        maxFoldQ f t (max acc.2 (f x))
      by_cases h : f x > acc.2
      · rw [show (if f x > acc.2 then (some (g x), f x) else acc) = (some (g x), f x) from if_pos h]
        rw [ih]
        rw [max_eq_right (le_of_lt h)]
      · rw [show (if f x > acc.2 then (some (g x), f x) else acc) = acc from if_neg h]
        rw [ih]
        rw [max_eq_left (not_lt.mp h)]

lemma maxFoldQ_init_le {α : Type} (f : α → ℚ) :
    ∀ (l : List α) (s : ℚ), s ≤ maxFoldQ f l s := by
  intro l
  induction l with
  | nil => intro s; exact le_refl s
  | cons x t ih =>
      intro s
      calc s ≤ max s (f x) := le_max_left _ _
        _ ≤ maxFoldQ f t (max s (f x)) := ih _

lemma maxFoldQ_mem_le {α : Type} (f : α → ℚ) :
    ∀ (l : List α) (s : ℚ) (x : α), x ∈ l → f x ≤ maxFoldQ f l s := by
  intro l
  induction l with
  | nil => intro s x hx; cases hx
  | cons y t ih =>
      intro s x hx
      rcases List.mem_cons.mp hx with h | h
      · subst h
        calc f x ≤ max s (f x) := le_max_right _ _
          _ ≤ maxFoldQ f t (max s (f x)) := maxFoldQ_init_le f t _
      · exact ih _ x h

lemma pickFold_stall {α β : Type} (f : α → ℚ) (g : α → β) :
    ∀ (l : List α) (acc : Option β × ℚ),
      (∀ x ∈ l, f x ≤ acc.2) → pickFold f g l acc = acc := by
  intro l
  induction l with
  | nil => intro acc _; rfl
  | cons x t ih =>
      intro acc hle
      show pickFold f g t (if f x > acc.2 then (some (g x), f x) else acc) = acc
      rw [if_neg (not_lt.mpr (hle x (List.mem_cons_self _ _)))]
      exact ih acc (fun y hy => hle y (List.mem_cons_of_mem _ hy))

lemma maxFoldQ_attained {α : Type} (f : α → ℚ) :
    ∀ (l : List α) (s : ℚ),
      maxFoldQ f l s = s ∨ ∃ x ∈ l, f x = maxFoldQ f l s := by
  intro l
  induction l with
  | nil => intro s; exact Or.inl rfl
  | cons x t ih =>
      intro s
      rcases ih (max s (f x)) with h | ⟨y, hy, hfy⟩
      · by_cases hsf : f x ≤ s
        · rw [max_eq_left hsf] at h
          left
          show maxFoldQ f t (max s (f x)) = s
          rw [max_eq_left hsf]
          exact h
        · right
          refine ⟨x, List.mem_cons_self _ _, ?_⟩
          show f x = maxFoldQ f t (max s (f x))
          rw [h, max_eq_right (le_of_not_le hsf)]
      · right
        exact ⟨y, List.mem_cons_of_mem _ hy, hfy⟩

/-- When some element strictly beats the seed, the strict-improvement
fold picks the first element attaining the maximum. -/
lemma pickFold_first_argmax {α β : Type} (f : α → ℚ) (g : α → β) :
    ∀ (l : List α) (acc : Option β × ℚ),
      acc.2 < maxFoldQ f l acc.2 →
      (pickFold f g l acc).1 =
        (l.find? (fun x => decide (f x = maxFoldQ f l acc.2))).map g := by
  intro l
  induction l with
  | nil => intro acc h; exact absurd h (lt_irrefl _)
  | cons x t ih =>
      intro acc hlt
      have hM : maxFoldQ f (x :: t) acc.2 = maxFoldQ f t (max acc.2 (f x)) := rfl
      by_cases hx : f x = maxFoldQ f (x :: t) acc.2
      · have hgt : f x > acc.2 := hx ▸ hlt
        rw [List.find?_cons_of_pos _ (by simpa using hx)]
        show (pickFold f g t (if f x > acc.2 then (some (g x), f x) else acc)).1 = some (g x)
        rw [if_pos hgt]
        have hstall : pickFold f g t (some (g x), f x) = (some (g x), f x) := by
          refine pickFold_stall f g t _ (fun y hy => ?_)
          show f y ≤ f x
          have := maxFoldQ_mem_le f t (max acc.2 (f x)) y hy
          rw [← hM] at this
          exact hx ▸ this
        rw [hstall]
      · have hxle : f x ≤ maxFoldQ f (x :: t) acc.2 :=
          maxFoldQ_mem_le f (x :: t) acc.2 x (List.mem_cons_self _ _)
        have hxlt : f x < maxFoldQ f (x :: t) acc.2 := lt_of_le_of_ne hxle hx
        rw [List.find?_cons_of_neg _ (by simpa using hx)]
        show (pickFold f g t (if f x > acc.2 then (some (g x), f x) else acc)).1 = _
        by_cases hgt : f x > acc.2
        · rw [if_pos hgt]
          have hMeq : maxFoldQ f t (f x) = maxFoldQ f (x :: t) acc.2 := by
            rw [hM, max_eq_right (le_of_lt hgt)]
          have := ih (some (g x), f x) (by
            show f x < maxFoldQ f t (f x)
            rw [hMeq]; exact hxlt)
          rw [this]
          rw [show maxFoldQ f t (some (g x), f x).2 = maxFoldQ f (x :: t) acc.2 from hMeq]
        · rw [if_neg hgt]
          have hMeq : maxFoldQ f t acc.2 = maxFoldQ f (x :: t) acc.2 := by
            rw [hM, max_eq_left (not_lt.mp hgt)]
          have := ih acc (by rw [hMeq]; exact hlt)
          rw [this, hMeq]

/-- The loop of `match_play` is the strict-improvement fold over the
filtered candidates. -/
lemma bestFold_eq_pickFold (ayl : Int) (dir : String) (hint : Option Int)
    (plays : List PlayInfo) :
    bestFold ayl dir hint plays =
      pickFold (candScore ayl dir hint) Prod.snd (filteredCandidates plays) (none, 0) := by
  unfold bestFold filteredCandidates pickFold
  exact foldl_skip_eq_filter (fun ip => ip.2.yard_line = 0 ∧ ip.2.down = 0)
    (fun acc x => if candScore ayl dir hint x > acc.2
      then (some x.2, candScore ayl dir hint x) else acc)
    plays.enum ((none : Option PlayInfo), (0:ℚ))

/-- The loop's final `best_score` is the maximum candidate score. -/
lemma bestFold_snd (ayl : Int) (dir : String) (hint : Option Int)
    (plays : List PlayInfo) :
    (bestFold ayl dir hint plays).2 = maxCandScore ayl dir hint plays := by
  rw [bestFold_eq_pickFold]
  exact pickFold_snd _ _ _ _

/-- When the maximum is positive, the loop's `best_match` is the first
candidate attaining the maximum. -/
lemma bestFold_fst_of_pos (ayl : Int) (dir : String) (hint : Option Int)
    (plays : List PlayInfo) (h : 0 < maxCandScore ayl dir hint plays) :
    (bestFold ayl dir hint plays).1 =
      ((filteredCandidates plays).find? (fun ip =>
        decide (candScore ayl dir hint ip = maxCandScore ayl dir hint plays))).map Prod.snd := by
  rw [bestFold_eq_pickFold]
  exact pickFold_first_argmax _ _ _ _ h

/-- When no candidate scores above zero, the loop keeps `best_match =
None`. -/
lemma bestFold_fst_of_zero (ayl : Int) (dir : String) (hint : Option Int)
    (plays : List PlayInfo) (h : maxCandScore ayl dir hint plays ≤ 0) :
    (bestFold ayl dir hint plays).1 = none := by
  rw [bestFold_eq_pickFold]
  have hs : pickFold (candScore ayl dir hint) Prod.snd (filteredCandidates plays)
      ((none : Option PlayInfo), (0:ℚ)) = (none, 0) := by
    refine pickFold_stall _ _ _ _ (fun x hx => ?_)
    exact le_trans (maxFoldQ_mem_le _ _ 0 x hx) h
  rw [hs]

/-- The winning candidate as the claim describes it (C2): among the
filtered candidates, the first one attaining the maximum score, accepted
exactly when that maximum is at least `0.3`. -/
def specBestCandidate (a : MatchArgs) (plays : List PlayInfo) :
    Option (Nat × PlayInfo) :=
  if (0.3 : ℚ) ≤ maxCandScore a.absolute_yardline a.play_direction a.play_sequence_hint plays then
    (filteredCandidates plays).find? (fun ip =>
      decide (candScore a.absolute_yardline a.play_direction a.play_sequence_hint ip =
        maxCandScore a.absolute_yardline a.play_direction a.play_sequence_hint plays))
  else none

/-- The result of `match_play` as the claim describes it: the enriched
play of the winning candidate with `match_confidence` equal to its
(maximal) score, absent when the threshold rejects. -/
def specMatchResult (gm : GameMapping) (a : MatchArgs) (plays : List PlayInfo) :
    Option EnrichedPlay :=
  (specBestCandidate a plays).map (fun ip =>
    mkEnrichedPlay gm a ip.2
      (candScore a.absolute_yardline a.play_direction a.play_sequence_hint ip))

/-- Selection core of `match_play` equals the claim-side description. -/
lemma matchPlayCore_eq_spec (gm : GameMapping) (a : MatchArgs)
    (plays : List PlayInfo) :
    matchPlayCore gm plays a = specMatchResult gm a plays := by
  rcases hbf : bestFold a.absolute_yardline a.play_direction a.play_sequence_hint plays
    with ⟨b1, s1⟩
  have hs1 : s1 = maxCandScore a.absolute_yardline a.play_direction a.play_sequence_hint plays := by
    rw [← bestFold_snd a.absolute_yardline a.play_direction a.play_sequence_hint plays, hbf]
  unfold matchPlayCore specMatchResult specBestCandidate
  dsimp only
  rw [hbf]
  dsimp only
  by_cases hM : (0.3 : ℚ) ≤ maxCandScore a.absolute_yardline a.play_direction a.play_sequence_hint plays
  · rw [if_pos hM]
    have hMpos : (0:ℚ) < maxCandScore a.absolute_yardline a.play_direction a.play_sequence_hint plays :=
      lt_of_lt_of_le (by norm_num) hM
    have h1 := bestFold_fst_of_pos a.absolute_yardline a.play_direction a.play_sequence_hint plays hMpos
    rw [hbf] at h1
    dsimp only at h1
    cases hfind : (filteredCandidates plays).find? (fun ip =>
        decide (candScore a.absolute_yardline a.play_direction a.play_sequence_hint ip =
          maxCandScore a.absolute_yardline a.play_direction a.play_sequence_hint plays)) with
    | none =>
        rw [hfind] at h1
        simp only [Option.map_none'] at h1
        subst h1
        rfl
    | some w =>
        rw [hfind] at h1
        simp only [Option.map_some'] at h1
        subst h1
        rw [hs1]
        dsimp only
        rw [if_neg (not_lt.mpr hM)]
        have hfw : candScore a.absolute_yardline a.play_direction a.play_sequence_hint w =
            maxCandScore a.absolute_yardline a.play_direction a.play_sequence_hint plays := by
          simpa using List.find?_some hfind
        simp only [Option.map_some']
        rw [hfw]
  · rw [if_neg hM]
    cases b1 with
    | none => rfl
    | some bm =>
        rw [hs1]
        dsimp only
        rw [if_pos (not_le.mp hM)]
        rfl

/-- A found element splits the list, everything before it failing the
predicate. -/
lemma find?_prefix {α : Type} (p : α → Bool) :
    ∀ (l : List α) (w : α), l.find? p = some w →
      ∃ pre post, l = pre ++ w :: post ∧ ∀ c ∈ pre, p c = false := by
  intro l
  induction l with
  | nil => intro w h; simp [List.find?] at h
  | cons x t ih =>
      intro w h
      cases hx : p x with
      | true =>
          rw [List.find?_cons_of_pos _ hx] at h
          obtain rfl : x = w := by injection h
          exact ⟨[], t, rfl, by intro c hc; cases hc⟩
      | false =>
          rw [List.find?_cons_of_neg _ (by simp [hx])] at h
          obtain ⟨pre, post, heq, hpre⟩ := ih w h
          refine ⟨x :: pre, post, by rw [heq]; rfl, ?_⟩
          intro c hc
          rcases List.mem_cons.mp hc with h' | h'
          · exact h' ▸ hx
          · exact hpre c h'

/-- The winner strictly beats every earlier filtered candidate (C2): no
earlier candidate matches its (maximal) score, so later ties never
replace the first maximum. -/
def winnerBeatsEarlier (a : MatchArgs) (plays : List PlayInfo) : Prop :=
  ∀ w, specBestCandidate a plays = some w →
    ∃ pre post, filteredCandidates plays = pre ++ w :: post ∧
      ∀ c ∈ pre, candScore a.absolute_yardline a.play_direction a.play_sequence_hint c <
        candScore a.absolute_yardline a.play_direction a.play_sequence_hint w

/-- The returned `match_confidence` is the winning (maximal) score (C2). -/
def confidenceIsMax (gm : GameMapping) (a : MatchArgs) (plays : List PlayInfo) : Prop :=
  ∀ e, specMatchResult gm a plays = some e →
    e.match_confidence =
      maxCandScore a.absolute_yardline a.play_direction a.play_sequence_hint plays

lemma winnerBeatsEarlier_holds (a : MatchArgs) (plays : List PlayInfo) :
    winnerBeatsEarlier a plays := by
  intro w hw
  unfold specBestCandidate at hw
  split at hw
  · obtain ⟨pre, post, heq, hpre⟩ := find?_prefix _ _ _ hw
    refine ⟨pre, post, heq, fun c hc => ?_⟩
    have hcmem : c ∈ filteredCandidates plays := by
      rw [heq]
      exact List.mem_append_left _ hc
    have hcle := maxFoldQ_mem_le
      (candScore a.absolute_yardline a.play_direction a.play_sequence_hint)
      (filteredCandidates plays) 0 c hcmem
    have hcne : ¬ (candScore a.absolute_yardline a.play_direction a.play_sequence_hint c =
        maxCandScore a.absolute_yardline a.play_direction a.play_sequence_hint plays) := by
      have := hpre c hc
      simpa using this
    have hwM : candScore a.absolute_yardline a.play_direction a.play_sequence_hint w =
        maxCandScore a.absolute_yardline a.play_direction a.play_sequence_hint plays := by
      simpa using List.find?_some hw
    rw [hwM]
    exact lt_of_le_of_ne hcle hcne
  · exact absurd hw (by simp)

lemma confidenceIsMax_holds (gm : GameMapping) (a : MatchArgs) (plays : List PlayInfo) :
    confidenceIsMax gm a plays := by
  intro e he
  unfold specMatchResult at he
  cases hb : specBestCandidate a plays with
  | none => rw [hb] at he; simp at he
  | some w =>
      rw [hb] at he
      simp only [Option.map_some'] at he
      injection he with he'
      subst he'
      show candScore a.absolute_yardline a.play_direction a.play_sequence_hint w =
        maxCandScore a.absolute_yardline a.play_direction a.play_sequence_hint plays
      unfold specBestCandidate at hb
      split at hb
      · simpa using List.find?_some hb
      · exact absurd hb (by simp)

/-- When the maximum reaches the threshold, a winner exists. -/
lemma specBestCandidate_isSome (a : MatchArgs) (plays : List PlayInfo)
    (h : (0.3:ℚ) ≤ maxCandScore a.absolute_yardline a.play_direction a.play_sequence_hint plays) :
    (specBestCandidate a plays).isSome = true := by
  unfold specBestCandidate
  rw [if_pos h]
  rcases maxFoldQ_attained
      (candScore a.absolute_yardline a.play_direction a.play_sequence_hint)
      (filteredCandidates plays) 0 with hz | ⟨x, hx, hfx⟩
  · exfalso
    have hz' : maxCandScore a.absolute_yardline a.play_direction a.play_sequence_hint plays = 0 := hz
    rw [hz'] at h
    norm_num at h
  · rw [List.find?_isSome]
    exact ⟨x, hx, by simpa using hfx⟩

/-- C2: for every source play whose game mapping resolves and whose
external play list is non-empty, `match_play` raises nothing and returns
exactly the claim-side selection: candidates with `yard_line == 0 and
down == 0` are excluded; among the rest the first candidate attaining the
maximal score wins (every earlier candidate scores strictly less, so a
later equal score never replaces it); the result is present with
`match_confidence` equal to that winning score if and only if the winning
score is at least `0.3` (`0.3` itself accepted). -/
theorem match_play_candidate_selection
    (net : Net) (dur : ℚ) (a : MatchArgs) (st st1 st2 : SysState)
    (gm : GameMapping) (plays : List PlayInfo) (evs : List (String × ℚ))
    (hm : getMapping net dur a.game_id none st = .ok (some gm, st1, evs))
    (hpl : getEspnPlays net dur gm.espn_game_id st1 = (plays, st2))
    (hne : plays ≠ []) :
    match_play net dur a st =
      .ok (specMatchResult gm a plays, (getGameInfoM net dur gm.espn_game_id st2).2) ∧
    ((0.3:ℚ) ≤ maxCandScore a.absolute_yardline a.play_direction a.play_sequence_hint plays →
      (specMatchResult gm a plays).isSome = true) ∧
    (maxCandScore a.absolute_yardline a.play_direction a.play_sequence_hint plays < 0.3 →
      specMatchResult gm a plays = none) ∧
    confidenceIsMax gm a plays ∧
    winnerBeatsEarlier a plays := by
  refine ⟨?_, ?_, ?_, confidenceIsMax_holds gm a plays, winnerBeatsEarlier_holds a plays⟩
  · unfold match_play
    rw [hm]
    dsimp only
    unfold matchPlayLookups
    dsimp only
    rw [hpl]
    dsimp only
    have hemp : plays.isEmpty = false := by
      cases plays with
      | nil => exact absurd rfl hne
      | cons p t => rfl
    rw [hemp]
    simp only [Bool.false_eq_true, if_false]
    rw [matchPlayCore_eq_spec]
  · intro h
    unfold specMatchResult
    rw [Option.isSome_map']
    exact specBestCandidate_isSome a plays h
  · intro h
    unfold specMatchResult specBestCandidate
    rw [if_neg (not_le.mpr h)]
    rfl

/-- Concrete external play: 3rd and 3 at the converted yard line 68. -/
def playP : PlayInfo :=
  { play_id := "4015473531", quarter := 1, clock := "14:25", down := 3,
    distance := 3, yard_line := 68, yard_line_side := "DET",
    play_text := "Goff incomplete deep right to Reynolds",
    play_type := "Pass Incompletion", scoring_play := false,
    home_score := 0, away_score := 0 }

/-- Oracle with a one-game schedule for 2023-09-07 and a summary holding
one play (and no parseable game info) for that game. -/
def netBatch : Net := fun url =>
  if url = scoreboardUrl "20230907" then some (RespData.scoreboard [gameA])
  else if url = summaryUrl "401547353" then some (RespData.summary [playP] none)
  else none

/-- Mapping produced for `"2023090700"` against `netBatch`. -/
def gmAW : GameMapping := mkGameMapping "2023090700" "20230907" gameA

/-- Arguments of the witness `match_play` call (the spec's end-to-end
scenario: absolute yard line 42, sequence hint 3). -/
def matchArgsW : MatchArgs :=
  { game_id := "2023090700", play_id := 101, absolute_yardline := 42,
    play_direction := "right", ball_land_x := 63.26, ball_land_y := -0.22,
    num_frames := 21, play_sequence_hint := some 3 }

/-- Witness start state: fresh client and mapper, the witness game's play
list already in the matcher's per-game play cache. -/
def sysInitP : SysState :=
  { client := ESPNClientInit, mappings := [],
    espn_plays_cache := [("401547353", [playP])], game_info_cache := [] }

/-- Mapper state after resolving the witness game. -/
def stMapW : SysState :=
  resultState sysInitP (getMapping netBatch 0 "2023090700" none sysInitP)

/-- State after additionally fetching the witness game's plays. -/
def stPlaysW : SysState :=
  (getEspnPlays netBatch 0 gmAW.espn_game_id stMapW).2

/-- Witness for C2 at the concrete one-candidate game. -/
theorem match_play_candidate_selection_witness :
    match_play netBatch 0 matchArgsW sysInitP =
      .ok (specMatchResult gmAW matchArgsW [playP],
        (getGameInfoM netBatch 0 gmAW.espn_game_id stPlaysW).2) ∧
    ((0.3:ℚ) ≤ maxCandScore matchArgsW.absolute_yardline matchArgsW.play_direction
        matchArgsW.play_sequence_hint [playP] →
      (specMatchResult gmAW matchArgsW [playP]).isSome = true) ∧
    (maxCandScore matchArgsW.absolute_yardline matchArgsW.play_direction
        matchArgsW.play_sequence_hint [playP] < 0.3 →
      specMatchResult gmAW matchArgsW [playP] = none) ∧
    confidenceIsMax gmAW matchArgsW [playP] ∧
    winnerBeatsEarlier matchArgsW [playP] :=
  match_play_candidate_selection netBatch 0 matchArgsW sysInitP stMapW stPlaysW
    gmAW [playP] (resultEvents (getMapping netBatch 0 "2023090700" none sysInitP))
    rfl rfl (by simp)

/-- The one good batch play (same game and field position as the witness). -/
def goodPlayB : BatchPlay :=
  { game_id := "2023090700", play_id := 101, absolute_yardline := 42,
    play_direction := "right", ball_land_x := 63.26, ball_land_y := -0.22,
    num_frames := 21 }

/-- A malformed batch record: the suffix `"ab"` after the 8-digit date
does not parse as an integer. -/
def badPlayB : BatchPlay :=
  { game_id := "20230907ab", play_id := 999, absolute_yardline := 50,
    play_direction := "left", ball_land_x := 0, ball_land_y := 0,
    num_frames := 10 }

/-- Arguments `match_plays_batch` builds for `goodPlayB` (group position
0 as the sequence hint). -/
def batchArgsW : MatchArgs :=
  { game_id := "2023090700", play_id := 101, absolute_yardline := 42,
    play_direction := "right", ball_land_x := 63.26, ball_land_y := -0.22,
    num_frames := 21, play_sequence_hint := some (((0:Nat)) : Int) }

/-- State component of a `match_play` result. -/
def mpState (dflt : SysState) : Except String (Option EnrichedPlay × SysState) → SysState
  | .ok x => x.2
  | .error _ => dflt

/-- The loop selects `playP` with the full score 1 for the good play. -/
lemma matchPlayCore_good :
    matchPlayCore gmAW [playP] batchArgsW =
      some (mkEnrichedPlay gmAW batchArgsW playP 1) := by
  have hbf : bestFold batchArgsW.absolute_yardline batchArgsW.play_direction
      batchArgsW.play_sequence_hint [playP] = (some playP, 1) := by
    norm_num [bestFold, List.enum, List.enumFrom, candScore, calculate_match_score,
      absolute_to_espn_yardline, seqDistance, playP, batchArgsW]
  unfold matchPlayCore
  rw [hbf]
  dsimp only
  rw [if_neg (by norm_num : ¬ (1:ℚ) < 0.3)]

/-- One step of the group loop, for a play whose match succeeds. -/
lemma matchGroup_cons_some (net : Net) (dur : ℚ) (gid : String) (p : BatchPlay)
    (rest : List BatchPlay) (seq_idx : Nat) (st st1 : SysState)
    (acc : List EnrichedPlay) (e : EnrichedPlay)
    (h : match_play net dur
        { game_id := gid, play_id := p.play_id,
          absolute_yardline := p.absolute_yardline,
          play_direction := p.play_direction, ball_land_x := p.ball_land_x,
          ball_land_y := p.ball_land_y, num_frames := p.num_frames,
          play_sequence_hint := some (seq_idx : Int) } st = .ok (some e, st1)) :
    matchGroup net dur gid (p :: rest) seq_idx st acc =
      matchGroup net dur gid rest (seq_idx + 1) st1 (acc ++ [e]) := by
  conv_lhs => unfold matchGroup
  rw [h]

/-- A single-group batch, given the group's result. -/
lemma matchGroups_singleton (net : Net) (dur : ℚ) (gid : String)
    (ps : List BatchPlay) (st st1 : SysState) (acc acc1 : List EnrichedPlay)
    (h : matchGroup net dur gid ps 0 st acc = .ok (acc1, st1)) :
    matchGroups net dur [(gid, ps)] st acc = .ok (acc1, st1) := by
  conv_lhs => unfold matchGroups
  rw [h]
  rfl

/-- C8 (code bug): a malformed source record aborts the whole batch.  The
batch `[badPlayB, goodPlayB]` contains one malformed id (`"20230907ab"`,
whose suffix `int("ab")` raises an uncaught `ValueError`) and one play
that matches perfectly on its own — yet the batch call returns the
propagated error and none of the other plays' matches, where the claim
(and the spec's propagation policy) requires the batch to complete and
return the good play's enrichment, as the second conjunct shows it does
when the malformed record is absent. -/
theorem match_plays_batch_aborts_on_malformed_id :
    match_plays_batch netBatch 0 [badPlayB, goodPlayB] sysInitP = .error "ValueError" ∧
    match_plays_batch netBatch 0 [goodPlayB] sysInitP =
      .ok ([mkEnrichedPlay gmAW batchArgsW playP 1],
        mpState sysInitP (match_play netBatch 0 batchArgsW sysInitP)) := by
  constructor
  · rfl
  · have hmp : match_play netBatch 0 batchArgsW sysInitP =
        .ok (matchPlayCore gmAW [playP] batchArgsW,
          mpState sysInitP (match_play netBatch 0 batchArgsW sysInitP)) := rfl
    rw [matchPlayCore_good] at hmp
    have hcons := matchGroup_cons_some netBatch 0 "2023090700" goodPlayB [] 0 sysInitP
      (mpState sysInitP (match_play netBatch 0 batchArgsW sysInitP)) []
      (mkEnrichedPlay gmAW batchArgsW playP 1) hmp
    show matchGroups netBatch 0 [("2023090700", [goodPlayB])] sysInitP [] =
      .ok ([mkEnrichedPlay gmAW batchArgsW playP 1],
        mpState sysInitP (match_play netBatch 0 batchArgsW sysInitP))
    exact matchGroups_singleton netBatch 0 "2023090700" [goodPlayB] sysInitP
      (mpState sysInitP (match_play netBatch 0 batchArgsW sysInitP)) []
      [mkEnrichedPlay gmAW batchArgsW playP 1] hcons

/-- Responses that agree on everything `match_play`'s result can see:
scoreboards are equal, summaries carry the same play list but arbitrary
(possibly absent) game info. -/
def respRel : RespData → RespData → Prop
  | .scoreboard g1, .scoreboard g2 => g1 = g2
  | .summary p1 _, .summary p2 _ => p1 = p2
  | _, _ => False

/-- `respRel` lifted to optional responses (failures map to failures). -/
def oRespRel : Option RespData → Option RespData → Prop
  | none, none => True
  | some r1, some r2 => respRel r1 r2
  | _, _ => False

/-- Two networks that differ only in the game-info part of summary
responses. -/
def netRel (n1 n2 : Net) : Prop := ∀ url, oRespRel (n1 url) (n2 url)

/-- Response caches with equal keys and `respRel`-related payloads. -/
def cacheRel : List (String × RespData) → List (String × RespData) → Prop :=
  List.Forall₂ (fun e1 e2 => e1.1 = e2.1 ∧ respRel e1.2 e2.2)

/-- Client states that agree except in the game-info parts of cached
summaries. -/
def clientRel (s1 s2 : ClientState) : Prop :=
  s1.cache_enabled = s2.cache_enabled ∧
  s1.rate_limit_seconds = s2.rate_limit_seconds ∧
  s1.last_request_time = s2.last_request_time ∧
  s1.clock = s2.clock ∧ cacheRel s1.cache s2.cache

/-- System states that agree on everything `match_play`'s result can see
(the per-game game-info cache is unconstrained). -/
def sysRel (s1 s2 : SysState) : Prop :=
  clientRel s1.client s2.client ∧ s1.mappings = s2.mappings ∧
  s1.espn_plays_cache = s2.espn_plays_cache

lemma findA_rel (u : String) :
    ∀ {c1 c2 : List (String × RespData)}, cacheRel c1 c2 →
      oRespRel (findA c1 u) (findA c2 u) := by
  intro c1 c2 h
  induction h with
  | nil => exact trivial
  | cons h1 _ ih =>
      rename_i e1 e2 t1 t2 _
      show oRespRel (if e1.1 = u then some e1.2 else findA t1 u)
        (if e2.1 = u then some e2.2 else findA t2 u)
      by_cases hk : e1.1 = u
      · rw [if_pos hk, if_pos (h1.1 ▸ hk)]
        exact h1.2
      · rw [if_neg hk, if_neg (h1.1 ▸ hk)]
        exact ih

lemma rateLimit_rel (s1 s2 : ClientState) (h : clientRel s1 s2) :
    clientRel (rateLimit s1) (rateLimit s2) := by
  obtain ⟨he, hr, hl, hc, hcache⟩ := h
  unfold clientRel rateLimit
  dsimp only
  have hcond : (s2.clock - s2.last_request_time < s2.rate_limit_seconds) =
      (s1.clock - s1.last_request_time < s1.rate_limit_seconds) := by
    rw [hr, hl, hc]
  by_cases hlt : s1.clock - s1.last_request_time < s1.rate_limit_seconds
  · rw [if_pos hlt, if_pos (hcond ▸ hlt)]
    exact ⟨he, hr, by rw [hr, hl, hc], by rw [hr, hl, hc], hcache⟩
  · rw [if_neg hlt, if_neg (hcond ▸ hlt)]
    exact ⟨he, hr, hc, hc, hcache⟩

lemma clientGet_rel (net1 net2 : Net) (dur : ℚ) (url : String)
    (s1 s2 : ClientState) (hn : netRel net1 net2) (hs : clientRel s1 s2) :
    oRespRel (clientGet net1 dur url s1).1 (clientGet net2 dur url s2).1 ∧
    clientRel (clientGet net1 dur url s1).2.1 (clientGet net2 dur url s2).2.1 ∧
    (clientGet net1 dur url s1).2.2 = (clientGet net2 dur url s2).2.2 := by
  obtain ⟨he, hr, hl, hc, hcache⟩ := hs
  have hlk : oRespRel (if s1.cache_enabled = true then findA s1.cache url else none)
      (if s2.cache_enabled = true then findA s2.cache url else none) := by
    by_cases hce : s1.cache_enabled = true
    · rw [if_pos hce, if_pos (he ▸ hce)]
      exact findA_rel url hcache
    · rw [if_neg hce, if_neg (he ▸ hce)]
      exact trivial
  unfold clientGet
  cases h1 : (if s1.cache_enabled = true then findA s1.cache url else none) with
  | some r1 =>
      cases h2 : (if s2.cache_enabled = true then findA s2.cache url else none) with
      | some r2 =>
          rw [h1, h2] at hlk
          exact ⟨hlk, ⟨he, hr, hl, hc, hcache⟩, rfl⟩
      | none =>
          rw [h1, h2] at hlk
          exact hlk.elim
  | none =>
      cases h2 : (if s2.cache_enabled = true then findA s2.cache url else none) with
      | some r2 =>
          rw [h1, h2] at hlk
          exact hlk.elim
      | none =>
          dsimp only
          have hrel1 := rateLimit_rel s1 s2 ⟨he, hr, hl, hc, hcache⟩
          obtain ⟨he', hr', hl', hc', hcache'⟩ := hrel1
          have hnet := hn url
          cases hn1 : net1 url with
          | some d1 =>
              cases hn2 : net2 url with
              | some d2 =>
                  rw [hn1, hn2] at hnet
                  dsimp only
                  refine ⟨hnet, ?_, by rw [hc']⟩
                  by_cases hce2 : (rateLimit s1).cache_enabled = true
                  · rw [if_pos hce2, if_pos (by rw [← he']; exact hce2)]
                    exact ⟨he', hr', hl', by rw [hc'], List.Forall₂.cons ⟨rfl, hnet⟩ hcache'⟩
                  · rw [if_neg hce2, if_neg (by rw [← he']; exact hce2)]
                    exact ⟨he', hr', hl', by rw [hc'], hcache'⟩
              | none =>
                  rw [hn1, hn2] at hnet
                  exact hnet.elim
          | none =>
              cases hn2 : net2 url with
              | some d2 =>
                  rw [hn1, hn2] at hnet
                  exact hnet.elim
              | none =>
                  exact ⟨trivial, ⟨he', hr', hl', by rw [hc'], hcache'⟩, by rw [hc']⟩

lemma get_scoreboard_rel (net1 net2 : Net) (dur : ℚ) (date : String)
    (s1 s2 : ClientState) (hn : netRel net1 net2) (hs : clientRel s1 s2) :
    (get_scoreboard net1 dur date s1).1 = (get_scoreboard net2 dur date s2).1 ∧
    clientRel (get_scoreboard net1 dur date s1).2.1 (get_scoreboard net2 dur date s2).2.1 ∧
    (get_scoreboard net1 dur date s1).2.2 = (get_scoreboard net2 dur date s2).2.2 := by
  obtain ⟨hresp, hst, hev⟩ := clientGet_rel net1 net2 dur (scoreboardUrl date) s1 s2 hn hs
  unfold get_scoreboard
  dsimp only
  cases h1 : (clientGet net1 dur (scoreboardUrl date) s1).1 with
  | some r1 =>
      cases h2 : (clientGet net2 dur (scoreboardUrl date) s2).1 with
      | some r2 =>
          rw [h1, h2] at hresp
          cases r1 with
          | scoreboard g1 =>
              cases r2 with
              | scoreboard g2 =>
                  dsimp only
                  exact ⟨hresp, hst, hev⟩
              | summary p2 i2 => exact hresp.elim
          | summary p1 i1 =>
              cases r2 with
              | scoreboard g2 => exact hresp.elim
              | summary p2 i2 =>
                  dsimp only
                  exact ⟨rfl, hst, hev⟩
      | none =>
          rw [h1, h2] at hresp
          exact hresp.elim
  | none =>
      cases h2 : (clientGet net2 dur (scoreboardUrl date) s2).1 with
      | some r2 =>
          rw [h1, h2] at hresp
          exact hresp.elim
      | none =>
          dsimp only
          exact ⟨rfl, hst, hev⟩

lemma getPlaysC_rel (net1 net2 : Net) (dur : ℚ) (id : String)
    (s1 s2 : ClientState) (hn : netRel net1 net2) (hs : clientRel s1 s2) :
    (getPlaysC net1 dur id s1).1 = (getPlaysC net2 dur id s2).1 ∧
    clientRel (getPlaysC net1 dur id s1).2.1 (getPlaysC net2 dur id s2).2.1 := by
  obtain ⟨hresp, hst, hev⟩ := clientGet_rel net1 net2 dur (summaryUrl id) s1 s2 hn hs
  unfold getPlaysC
  dsimp only
  cases h1 : (clientGet net1 dur (summaryUrl id) s1).1 with
  | some r1 =>
      cases h2 : (clientGet net2 dur (summaryUrl id) s2).1 with
      | some r2 =>
          rw [h1, h2] at hresp
          cases r1 with
          | scoreboard g1 =>
              cases r2 with
              | scoreboard g2 =>
                  dsimp only
                  exact ⟨rfl, hst⟩
              | summary p2 i2 => exact hresp.elim
          | summary p1 i1 =>
              cases r2 with
              | scoreboard g2 => exact hresp.elim
              | summary p2 i2 =>
                  dsimp only
                  exact ⟨hresp, hst⟩
      | none =>
          rw [h1, h2] at hresp
          exact hresp.elim
  | none =>
      cases h2 : (clientGet net2 dur (summaryUrl id) s2).1 with
      | some r2 =>
          rw [h1, h2] at hresp
          exact hresp.elim
      | none =>
          dsimp only
          exact ⟨rfl, hst⟩

/-- Relatedness of two `getMapping` results: same mapping outcome and
events, related states. -/
def mapResRel :
    Except String (Option GameMapping × SysState × List (String × ℚ)) →
    Except String (Option GameMapping × SysState × List (String × ℚ)) → Prop
  | .error e1, .error e2 => e1 = e2
  | .ok x1, .ok x2 => x1.1 = x2.1 ∧ sysRel x1.2.1 x2.2.1 ∧ x1.2.2 = x2.2.2
  | _, _ => False

lemma getMapping_rel (net1 net2 : Net) (dur : ℚ) (id : String)
    (teams : Option (String × String)) (st1 st2 : SysState)
    (hn : netRel net1 net2) (hs : sysRel st1 st2) :
    mapResRel (getMapping net1 dur id teams st1) (getMapping net2 dur id teams st2) := by
  obtain ⟨hcl, hmap, hpc⟩ := hs
  unfold getMapping
  rw [← hmap]
  cases hfm : findA st1.mappings id with
  | some m => exact ⟨rfl, ⟨hcl, hmap, hpc⟩, rfl⟩
  | none =>
      cases hp : parse_bdb_game_id id with
      | error e => exact rfl
      | ok p =>
          obtain ⟨date, game_num⟩ := p
          dsimp only
          obtain ⟨hg, hc, he⟩ :=
            get_scoreboard_rel net1 net2 dur date st1.client st2.client hn hcl
          rcases h1 : get_scoreboard net1 dur date st1.client with ⟨games1, cs1, evs1⟩
          rcases h2 : get_scoreboard net2 dur date st2.client with ⟨games2, cs2, evs2⟩
          rw [h1, h2] at hg hc he
          dsimp only at hg hc he
          subst hg
          subst he
          dsimp only
          by_cases hemp : games1.isEmpty = true
          · rw [if_pos hemp, if_pos hemp]
            exact ⟨rfl, ⟨hc, rfl, hpc⟩, rfl⟩
          · rw [if_neg hemp, if_neg hemp]
            cases hsel : selectGameSrc games1 teams game_num with
            | error e => exact rfl
            | ok o =>
                cases o with
                | none => exact ⟨rfl, ⟨hc, rfl, hpc⟩, rfl⟩
                | some g => exact ⟨rfl, ⟨hc, rfl, hpc⟩, rfl⟩

lemma getEspnPlays_rel (net1 net2 : Net) (dur : ℚ) (id : String)
    (st1 st2 : SysState) (hn : netRel net1 net2) (hs : sysRel st1 st2) :
    (getEspnPlays net1 dur id st1).1 = (getEspnPlays net2 dur id st2).1 ∧
    sysRel (getEspnPlays net1 dur id st1).2 (getEspnPlays net2 dur id st2).2 := by
  obtain ⟨hcl, hmap, hpc⟩ := hs
  unfold getEspnPlays
  rw [← hpc]
  cases hfc : findA st1.espn_plays_cache id with
  | some ps => exact ⟨rfl, ⟨hcl, hmap, hpc⟩⟩
  | none =>
      obtain ⟨hp, hc⟩ := getPlaysC_rel net1 net2 dur id st1.client st2.client hn hcl
      dsimp only
      exact ⟨hp, ⟨hc, hmap, by rw [hp, hpc]⟩⟩

/-- The lookup-and-select stage returns the same play for related
networks and states. -/
lemma matchPlayLookups_fst_rel (net1 net2 : Net) (dur : ℚ) (a : MatchArgs)
    (gm : GameMapping) (st1 st2 : SysState)
    (hn : netRel net1 net2) (hsys : sysRel st1 st2) :
    (matchPlayLookups net1 dur a gm st1).1 = (matchPlayLookups net2 dur a gm st2).1 := by
  obtain ⟨hp, hsys2⟩ := getEspnPlays_rel net1 net2 dur gm.espn_game_id st1 st2 hn hsys
  unfold matchPlayLookups
  dsimp only
  rw [← hp]
  by_cases hemp : (getEspnPlays net1 dur gm.espn_game_id st1).1.isEmpty = true
  · rw [if_pos hemp, if_pos hemp]
  · rw [if_neg hemp, if_neg hemp]

/-- C10: the result of `match_play` is independent of the game-info
summary lookup — for two runs against networks that agree on schedules
and play lists but return arbitrary (possibly absent) game info, from
states agreeing on everything but the game-info cache, the returned
optional `EnrichedPlay` is identical, because the enriched play's team
names and stadium come from the `GameMapping` and its scores and play
fields come from the matched candidate, never from the fetched game
info. -/
theorem match_play_ignores_game_info
    (net1 net2 : Net) (dur : ℚ) (a : MatchArgs) (st1 st2 : SysState)
    (hn : netRel net1 net2) (hs : sysRel st1 st2) :
    (match_play net1 dur a st1).map Prod.fst =
      (match_play net2 dur a st2).map Prod.fst := by
  have hm := getMapping_rel net1 net2 dur a.game_id none st1 st2 hn hs
  unfold match_play
  cases h1 : getMapping net1 dur a.game_id none st1 with
  | error e1 =>
      cases h2 : getMapping net2 dur a.game_id none st2 with
      | error e2 =>
          rw [h1, h2] at hm
          have he : e1 = e2 := hm
          rw [he]
      | ok x2 =>
          rw [h1, h2] at hm
          exact hm.elim
  | ok x1 =>
      cases h2 : getMapping net2 dur a.game_id none st2 with
      | error e2 =>
          rw [h1, h2] at hm
          exact hm.elim
      | ok x2 =>
          rw [h1, h2] at hm
          obtain ⟨m1, st1', evs1⟩ := x1
          obtain ⟨m2, st2', evs2⟩ := x2
          obtain ⟨hm1, hsys, hev⟩ := hm
          dsimp only at hm1 hsys hev ⊢
          subst hm1
          cases m1 with
          | none => rfl
          | some gm =>
              dsimp only
              show Except.ok (matchPlayLookups net1 dur a gm st1').1 =
                Except.ok (matchPlayLookups net2 dur a gm st2').1
              rw [matchPlayLookups_fst_rel net1 net2 dur a gm st1' st2' hn hsys]

/-- `netBatch` with the game-info part of the summary present instead of
absent. -/
def netBatchWithInfo : Net := fun url =>
  if url = scoreboardUrl "20230907" then some (RespData.scoreboard [gameA])
  else if url = summaryUrl "401547353" then some (RespData.summary [playP] (some gameA))
  else none

/-- Witness for C10: the same `match_play` call against `netBatch` (no
game info) and `netBatchWithInfo` (game info present) returns the same
optional enriched play. -/
theorem match_play_ignores_game_info_witness :
    (match_play netBatch 0 matchArgsW sysInitP).map Prod.fst =
      (match_play netBatchWithInfo 0 matchArgsW sysInitP).map Prod.fst :=
  match_play_ignores_game_info netBatch netBatchWithInfo 0 matchArgsW sysInitP sysInitP
    (by
      intro url
      unfold netBatch netBatchWithInfo
      split_ifs with h1 h2
      · exact rfl
      · exact rfl
      · exact trivial)
    ⟨⟨rfl, rfl, rfl, rfl, List.Forall₂.nil⟩, rfl, rfl⟩
